import Mathlib

/-!
# Verification of the stream-unzip job handler

A shallow embedding of `src/lambda_function.py` (a single-shot ZIP
extraction job handler) together with proofs about it.

Modelling conventions:
* Machine effects (S3 get/put/delete, MongoDB `update_one`, the synchronous
  lambda invocation) are recorded in an explicit operation trace (`Op`);
  the surrounding services are oracles supplied in an `Env` value.
* `get_ist_millis` is modelled by an abstract clock `Nat → Nat` indexed by
  the number of prior calls within the invocation.
* Strings are ASCII-modelled: `str.lower()` is mapped over `Char.toLower`,
  which matches Python on the ASCII filenames used throughout.
* Percent-decoding of S3 keys (`urllib.parse.unquote_plus`) is modelled as
  the identity: keys in the embedding stand for the decoded key.
* Python float arithmetic in the progress formula
  `10 + int((idx + 1) / total * 30)` is modelled by exact natural
  division `10 + ((idx + 1) * 30) / total`.
* MongoDB documents are modelled as records of optional fields; a write
  carries exactly the fields named in the source `$set` / `$setOnInsert`.
-/

namespace StreamUnzip

/-! ## String primitives (ASCII models of the Python string operations) -/

/-- Whether the character list `p` is a prefix of `s`. -/
def isPrefixL : List Char → List Char → Bool
  | [], _ => true
  | _ :: _, [] => false
  | a :: as, b :: bs => a == b && isPrefixL as bs

/-- Model of Python `s.startswith(p)`. -/
def strStartsWith (s p : String) : Bool :=
  isPrefixL p.data s.data

/-- Model of Python `s.endswith(p)`. -/
def strEndsWith (s p : String) : Bool :=
  isPrefixL p.data.reverse s.data.reverse

/-- Whether `p` occurs as a contiguous sublist of `s`;
model of Python `p in s`. -/
def containsL : List Char → List Char → Bool
  | [], p => isPrefixL p []
  | s@(_ :: t), p => isPrefixL p s || containsL t p

/-- Model of Python `p in s` on strings. -/
def strContains (s p : String) : Bool :=
  containsL s.data p.data

/-- Model of Python `s.lower()` (ASCII). -/
def strToLower (s : String) : String :=
  ⟨s.data.map Char.toLower⟩

/-- Model of `os.path.basename`: the part of the path after the last `/`. -/
def basename (s : String) : String :=
  ⟨(s.data.reverse.takeWhile (fun c => c != '/')).reverse⟩

/-- The characters before the last `.` of a list, when a `.` is present. -/
def beforeLastDot : List Char → Option (List Char)
  | [] => none
  | c :: cs =>
      match beforeLastDot cs with
      | some r => some (c :: r)
      | none => if c == '.' then some [] else none

/-- Model of `os.path.splitext(p)[0]` for a plain base filename: strip the
extension starting at the last dot, unless every character before that dot
is itself a dot (Python keeps leading dots with the root). -/
def splitextRoot (p : String) : String :=
  match beforeLastDot p.data with
  | none => p
  | some r => if r.all (fun c => c == '.') then p else ⟨r⟩

/-- Model of Python `s.split('/')`. -/
def splitSlash : List Char → List (List Char)
  | [] => [[]]
  | c :: cs =>
      if c == '/' then [] :: splitSlash cs
      else
        match splitSlash cs with
        | h :: t => (c :: h) :: t
        | [] => [[c]]

/-- Model of Python `a or b` on optional strings (`None` and `""` are falsy). -/
def pyOr (a b : Option String) : Option String :=
  match a with
  | some s => if s == "" then b else some s
  | none => b

/-! ## File classifier (`is_junk_file`, `is_valid_pdf`, `is_valid_excel`) -/

/-- The fixed platform-metadata markers from `JUNK_NAMES` in the source. -/
def JUNK_NAMES : List String :=
  ["._", ".ds_store", ".spotlight-v100", ".trashes", ".fseventsd",
   ".temporaryitems", ".appledouble", "__macosx", "thumbs.db",
   "desktop.ini", "iconcache.db", "~$", ".bak", ".lnk"]

/-- Embedding of `is_junk_file` from the source. -/
def is_junk_file (filename : String) : Bool :=
  if filename == "" then true
  else
    let base_name := basename filename
    if base_name == "" then true
    else
      let lower_name := strToLower base_name
      if JUNK_NAMES.any (fun j => strContains lower_name j)
          || strStartsWith base_name "." || strEndsWith base_name "~" then true
      else if strContains filename ".Trash-" || strContains filename "/tmp/" then true
      else if strEndsWith lower_name ".swp" || strEndsWith lower_name ".swo"
          || strEndsWith lower_name ".log" || strContains lower_name "cache" then true
      else false

/-- Embedding of `is_valid_pdf` from the source. -/
def is_valid_pdf (filename : String) (file_size : Nat) : Bool :=
  strEndsWith (strToLower filename) ".pdf" && decide (1024 ≤ file_size)

/-- Embedding of `is_valid_excel` from the source. -/
def is_valid_excel (filename : String) (file_size : Nat) : Bool :=
  (strEndsWith (strToLower filename) ".xlsx" || strEndsWith (strToLower filename) ".xls")
    && decide (2048 ≤ file_size)

/-! ## Data model -/

deriving instance DecidableEq for Except

/-- File contents.  The source only ever takes `len(file_data)` and
passes the bytes through to `put_object` unchanged, so the byte string
is modelled by its length plus an abstract identity tag distinguishing
different contents of equal length. -/
structure Bytes where
  size : Nat
  tag : Nat := 0
deriving DecidableEq, Repr

/-- One archive entry: its path inside the ZIP and the outcome of
`zip_file.read` on it (error text, or the raw bytes). -/
structure ZipEntry where
  name : String
  data : Except String Bytes
deriving DecidableEq, Repr

/-- A PDF manifest item, as appended to `pdf_files` in the source. -/
structure PdfItem where
  s3Key : String
  fileName : String
  uniqueCode : String
  fileSize : Nat
  s3Bucket : Option String
deriving DecidableEq, Repr

/-- The spreadsheet manifest item, as assigned to `excel_file`. -/
structure ExcelItem where
  s3Key : String
  fileName : String
  fileSize : Nat
  s3Bucket : Option String
deriving DecidableEq, Repr

/-- A generic-payload manifest item, as appended to `other_files`. -/
structure OtherItem where
  s3Key : String
  fileName : String
  fileSize : Nat
deriving DecidableEq, Repr

/-- A skip record, as appended to `skipped_files`. -/
structure SkipRec where
  fileName : String
  reason : String
deriving DecidableEq, Repr

/-- The optional fields a single MongoDB write can carry.  A field is
`none` when the corresponding `$set`/`$setOnInsert` document does not
mention it.  `s3Bucket`/`s3Key` are doubly optional because the written
value itself may be Python `None`. -/
structure JobFieldSet where
  createdOn : Option Nat := none
  type : Option String := none
  examCode : Option String := none
  courseCode : Option String := none
  uploadedBy : Option String := none
  eventSource : Option String := none
  status : Option String := none
  progress : Option Nat := none
  currentStep : Option String := none
  s3Bucket : Option (Option String) := none
  s3Key : Option (Option String) := none
  updatedOn : Option Nat := none
  totalFiles : Option Nat := none
  validFilesProcessed : Option Nat := none
  totalPDFs : Option Nat := none
  pdfFiles : Option (List PdfItem) := none
  excelFile : Option ExcelItem := none
  unzipFolderPath : Option String := none
  error : Option String := none
  originalZipDeleted : Option Bool := none
  zipDeletedAt : Option Nat := none
deriving DecidableEq, Repr

/-- One external effect performed by the handler, in program order. -/
inductive Op where
  /-- Performs `update_one({"jobId": j}, {"$setOnInsert": fields}, upsert=True)`. -/
  | dbSetOnInsert (jobId : Option String) (fields : JobFieldSet)
  /-- Performs `update_one({"jobId": j}, {"$set": fields})`. -/
  | dbSet (jobId : Option String) (fields : JobFieldSet)
  /-- Performs `s3_client.get_object(Bucket=b, Key=k)`. -/
  | s3Get (bucket : Option String) (key : Option String)
  /-- Performs `s3_client.put_object(Bucket=b, Key=k, Body=body, ContentType=ct, ...)`. -/
  | s3Put (bucket : Option String) (key : String) (body : Bytes)
      (contentType : Option String)
  /-- Performs `s3_client.delete_object(Bucket=b, Key=k)` (only recorded when it succeeds). -/
  | s3Delete (bucket : Option String) (key : Option String)
  /-- Performs `lambda_client.invoke(..., Payload=json.dumps({"jobId": j}))`. -/
  | invokeLambda (jobId : Option String)
deriving DecidableEq, Repr

/-- The decoded payload of the validation lambda's response
(`response_payload` in the source). -/
structure InvokePayload where
  errorMessage : Option String := none
  statusCode : Option Nat := none
  error : Option String := none
deriving DecidableEq, Repr

/-- The transport-level response of `lambda_client.invoke`:
`StatusCode` plus the decoded payload. -/
structure InvokeResponse where
  statusCode : Option Nat := none
  payload : InvokePayload := {}
deriving DecidableEq, Repr

/-- What `invoke_lambda2_sync` returns. -/
structure InvokeResult where
  success : Bool
  error : Option String := none
  response : Option InvokePayload := none
deriving DecidableEq, Repr

/-- The oracles for the handler's collaborators: the per-invocation uuid,
the IST clock (indexed by call number), the fetched-and-parsed archive,
the validation lambda's response (or a transport exception), the
`DELETE_ZIP_AFTER_SUCCESS` toggle and the outcome of the delete call. -/
structure Env where
  uuid : String := "uuid"
  clock : Nat → Nat := fun _ => 0
  archive : Except String (List ZipEntry) := .error "NoSuchKey"
  lambda2Response : Except String InvokeResponse := .error "timeout"
  deleteZipAfterSuccess : Bool := true
  deleteResult : Except String Unit := .ok ()

/-- Model of a single S3 record inside a storage-event notification. -/
structure S3Record where
  eventSource : String := ""
  bucket : String := ""
  key : String := ""
deriving DecidableEq, Repr

/-- Model of the trigger payload: either a notification list or a flat
direct-invocation object (absent JSON keys are `none` / `[]`). -/
structure Event where
  records : List S3Record := []
  jobId : Option String := none
  s3Bucket : Option String := none
  bucket : Option String := none
  s3Key : Option String := none
  examCode : Option String := none
  courseCode : Option String := none
  uploadedBy : Option String := none
deriving DecidableEq, Repr

/-- The canonical job descriptor returned by `parse_event`. -/
structure ParsedEvent where
  jobId : Option String
  s3Bucket : Option String
  s3Key : Option String
  examCode : String
  courseCode : String
  uploadedBy : String
  source : String
deriving DecidableEq, Repr

/-- The handler's returned value. -/
structure HandlerResult where
  statusCode : Nat
  jobId : Option String
  status : String
  error : Option String := none
deriving DecidableEq, Repr

/-! ## Event normalizer (`parse_event`) -/

/-- The fixed destination-layout marker. -/
def zipFilesRoot : String := "Answer_Scripts_Zip_Files/"

/-- Embedding of `parse_event`.  `.ok none` models the implicit Python
`return None` on a notification whose first record is not an S3 event
(the caller then fails subscripting `None`); `.error` models the raised
`ValueError("Invalid event format")`. -/
def parse_event (event : Event) (uuid : String) : Except String (Option ParsedEvent) :=
  match event.records with
  | record :: _ =>
      if record.eventSource == "aws:s3" then
        let bucket := record.bucket
        -- unquote_plus is modelled as the identity on the decoded key
        let key := record.key
        let codes : String × String :=
          if strStartsWith key zipFilesRoot then
            let path : List Char := key.data.drop zipFilesRoot.length
            let parts := splitSlash path
            if 3 ≤ parts.length then
              (⟨parts.headD []⟩, ⟨(parts.drop 1).headD []⟩)
            else ("UNKNOWN", "UNKNOWN")
          else ("UNKNOWN", "UNKNOWN")
        .ok (some
          { jobId := some ("JOB-" ++ uuid)
            s3Bucket := some bucket
            s3Key := some key
            examCode := codes.1
            courseCode := codes.2
            uploadedBy := "S3_AUTO_TRIGGER"
            source := "S3_EVENT" })
      else .ok none
  | [] =>
      if event.jobId.isSome || event.s3Key.isSome then
        .ok (some
          { jobId := event.jobId
            s3Bucket := pyOr event.s3Bucket event.bucket
            s3Key := event.s3Key
            examCode := event.examCode.getD "UNKNOWN"
            courseCode := event.courseCode.getD "UNKNOWN"
            uploadedBy := event.uploadedBy.getD "BACKEND"
            source := "DIRECT_INVOCATION" })
      else .error "Invalid event format"

/-! ## Downstream invoker (`invoke_lambda2_sync`) -/

/-- Embedding of `invoke_lambda2_sync`: a transport exception is a
failure with the exception text; a payload with an `errorMessage` key is
a failure with that message; otherwise an effective status code of 200
(the payload's `statusCode`, defaulting to the transport `StatusCode`,
itself defaulting to 0) is a success, and anything else is a failure
with the payload's `error` field or `"Unknown error"`. -/
def invoke_lambda2_sync (resp : Except String InvokeResponse) : InvokeResult :=
  match resp with
  | .error e => { success := false, error := some e }
  | .ok r =>
      match r.payload.errorMessage with
      | some m => { success := false, error := some m }
      | none =>
          if r.payload.statusCode.getD (r.statusCode.getD 0) == 200 then
            { success := true, response := some r.payload }
          else
            { success := false, error := some (r.payload.error.getD "Unknown error") }

/-! ## Extraction pipeline (the per-entry loop of `lambda_handler`) -/

/-- The loop accumulator: `pdf_files`, `excel_file`, `other_files`,
`skipped_files`, `valid_files_processed`. -/
structure ExtractState where
  pdfFiles : List PdfItem := []
  excelFile : Option ExcelItem := none
  otherFiles : List OtherItem := []
  skippedFiles : List SkipRec := []
  validFilesProcessed : Nat := 0
deriving DecidableEq, Repr

/-- Append a skip record, as `skipped_files.append({...})`. -/
def addSkip (st : ExtractState) (name reason : String) : ExtractState :=
  { st with skippedFiles := st.skippedFiles ++ [{ fileName := name, reason := reason }] }

/-- The PDF upload content type. -/
def pdfMime : String := "application/pdf"

/-- The spreadsheet upload content type. -/
def xlMime : String := "application/vnd.openxmlformats-officedocument.spreadsheetml.sheet"

/-- One iteration of the extraction loop, up to (but excluding) the
periodic progress checkpoint: the updated accumulator, the S3 uploads
performed, and whether the iteration reached the end of the loop body
(as opposed to hitting one of the `continue` statements). -/
def entryOutcome (bucket : Option String) (unzipPath : String) (e : ZipEntry)
    (st : ExtractState) : ExtractState × List Op × Bool :=
  if strEndsWith e.name "/" then (st, [], false)
  else if is_junk_file e.name then (addSkip st e.name "Junk", [], false)
  else
    match e.data with
    | .error msg => (addSkip st e.name msg, [], false)
    | .ok file_data =>
        let base_name := basename e.name
        -- file_size = len(file_data)
        let file_size := file_data.size
        if file_size == 0 then (addSkip st base_name "Empty", [], false)
        else
          let dest_key := unzipPath ++ base_name
          let lower_name := strToLower base_name
          if strEndsWith lower_name ".pdf" then
            if is_valid_pdf base_name file_size then
              ({ st with
                  pdfFiles := st.pdfFiles ++
                    [{ s3Key := dest_key, fileName := base_name
                       uniqueCode := splitextRoot base_name
                       fileSize := file_size, s3Bucket := bucket }]
                  validFilesProcessed := st.validFilesProcessed + 1 },
               [Op.s3Put bucket dest_key file_data (some pdfMime)], true)
            else (addSkip st base_name "Too small", [], false)
          else if strEndsWith lower_name ".xlsx" || strEndsWith lower_name ".xls" then
            if is_valid_excel base_name file_size then
              -- NOTE: the source uploads the spreadsheet before checking
              -- whether one was already accepted, so duplicates are
              -- uploaded as well.
              let putOp := Op.s3Put bucket dest_key file_data (some xlMime)
              match st.excelFile with
              | none =>
                  ({ st with
                      excelFile := some
                        { s3Key := dest_key, fileName := base_name
                          fileSize := file_size, s3Bucket := bucket }
                      validFilesProcessed := st.validFilesProcessed + 1 },
                   [putOp], true)
              | some _ => (addSkip st base_name "Duplicate", [putOp], true)
            else (addSkip st base_name "Too small", [], false)
          else
            ({ st with
                otherFiles := st.otherFiles ++
                  [{ s3Key := dest_key, fileName := base_name, fileSize := file_size }]
                validFilesProcessed := st.validFilesProcessed + 1 },
             [Op.s3Put bucket dest_key file_data none], true)

/-- Output of the extraction loop: final accumulator, emitted effects and
final clock index. -/
structure StepOut where
  state : ExtractState
  ops : List Op
  clk : Nat
deriving Repr

/-- The extraction loop over `file_list`, with the periodic progress
checkpoint `if (idx + 1) % 10 == 0` after each fully processed entry. -/
def extractLoop (bucket : Option String) (unzipPath : String) (jid : Option String)
    (total : Nat) (c : Nat → Nat) :
    List ZipEntry → Nat → ExtractState → Nat → StepOut
  | [], _, st, clk => { state := st, ops := [], clk := clk }
  | e :: rest, idx, st, clk =>
      let r := entryOutcome bucket unzipPath e st
      let cp : List Op × Nat :=
        if r.2.2 && (idx + 1) % 10 == 0 then
          ([Op.dbSet jid
              { progress := some (10 + ((idx + 1) * 30) / total)
                updatedOn := some (c clk) }], clk + 1)
        else ([], clk)
      let rest' := extractLoop bucket unzipPath jid total c rest (idx + 1) r.1 cp.2
      { state := rest'.state, ops := r.2.1 ++ cp.1 ++ rest'.ops, clk := rest'.clk }

/-! ## The handler -/

/-- The state of the `try` body when it finishes or raises: the job id
assigned so far, the effects performed, the clock index, and either the
success value or the exception text. -/
structure BodyOut where
  jobId : Option String := none
  ops : List Op := []
  clk : Nat := 0
  result : Except String HandlerResult

/-- The Python error text for subscripting the `None` returned by
`parse_event` on a non-S3 notification. -/
def noneSubscriptMsg : String := "'NoneType' object is not subscriptable"

/-- The `$setOnInsert` fields of the job-creation write (step 2). -/
def createFields (t : Nat) (p : ParsedEvent) : JobFieldSet :=
  { createdOn := some t
    type := some "ANSWER_SCRIPT_PROCESSING"
    examCode := some p.examCode
    courseCode := some p.courseCode
    uploadedBy := some p.uploadedBy
    eventSource := some p.source
    status := some "PENDING"
    progress := some 0 }

/-- The `$set` fields of the `UNZIPPING` write (step 3). -/
def unzippingFields (t : Nat) (p : ParsedEvent) : JobFieldSet :=
  { status := some "UNZIPPING"
    currentStep := some "Extracting files"
    progress := some 10
    s3Bucket := some p.s3Bucket
    s3Key := some p.s3Key
    updatedOn := some t }

/-- The effects of steps 2-4a: create, mark `UNZIPPING`, fetch the zip. -/
def preOps (env : Env) (p : ParsedEvent) : List Op :=
  [Op.dbSetOnInsert p.jobId (createFields (env.clock 0) p),
   Op.dbSet p.jobId (unzippingFields (env.clock 0) p),
   Op.s3Get p.s3Bucket p.s3Key]

/-- The destination folder for extracted entries. -/
def unzipPathOf (p : ParsedEvent) : String :=
  zipFilesRoot ++ p.examCode ++ "/" ++ p.courseCode ++ "/unzipped/"

/-- The extraction loop as run by the handler. -/
def loopOut (env : Env) (p : ParsedEvent) (entries : List ZipEntry) : StepOut :=
  extractLoop p.s3Bucket (unzipPathOf p) p.jobId entries.length env.clock entries 0 {} 1

/-- The `$set` fields of the `UNZIPPED` write (step 6). -/
def unzippedFields (t total valid : Nat) (pdfs : List PdfItem) (ex : ExcelItem)
    (path : String) : JobFieldSet :=
  { progress := some 40
    status := some "UNZIPPED"
    currentStep := some "Starting validation"
    updatedOn := some t
    totalFiles := some total
    validFilesProcessed := some valid
    totalPDFs := some pdfs.length
    pdfFiles := some pdfs
    excelFile := some ex
    unzipFolderPath := some path }

/-- The `$set` fields of the `VALIDATION_FAILED` write (step 7). -/
def vfailFields (msg : String) (t : Nat) : JobFieldSet :=
  { status := some "VALIDATION_FAILED"
    error := some ("Validation failed: " ++ msg)
    updatedOn := some t }

/-- The `$set` fields written by `delete_zip_file` after a successful
deletion.  Note: no `updatedOn` timestamp is part of this write. -/
def zipDeletedFields (t : Nat) : JobFieldSet :=
  { originalZipDeleted := some true
    zipDeletedAt := some t }

/-- The `$set` fields of the `COMPLETED` write (step 9). -/
def completedFields (t : Nat) : JobFieldSet :=
  { status := some "COMPLETED"
    updatedOn := some t }

/-- The `$set` fields written by the outer failure boundary. -/
def failFields (e : String) (t : Nat) : JobFieldSet :=
  { status := some "FAILED"
    error := some e
    updatedOn := some t }

/-- The effects and clock advance of the optional post-success zip
deletion (step 8): `delete_zip_file` swallows its own failures. -/
def delOps (env : Env) (p : ParsedEvent) (clk1 : Nat) : List Op × Nat :=
  if env.deleteZipAfterSuccess then
    match env.deleteResult with
    | .ok _ =>
        ([Op.s3Delete p.s3Bucket p.s3Key,
          Op.dbSet p.jobId (zipDeletedFields (env.clock clk1))], clk1 + 1)
    | .error _ => ([], clk1)
  else ([], clk1)

/-- Embedding of the `try` body of `lambda_handler` (steps 1-9). -/
def handlerBody (event : Event) (env : Env) : BodyOut :=
  match parse_event event env.uuid with
  | .error e => { result := .error e }
  | .ok none => { result := .error noneSubscriptMsg }
  | .ok (some parsed) =>
      let job_id := parsed.jobId
      match env.archive with
      | .error e => { jobId := job_id, ops := preOps env parsed, clk := 1, result := .error e }
      | .ok entries =>
          let lp := loopOut env parsed entries
          match lp.state.excelFile with
          | none =>
              { jobId := job_id, ops := preOps env parsed ++ lp.ops, clk := lp.clk
                result := .error "No Excel file found" }
          | some ex =>
              if lp.state.pdfFiles.length == 0 then
                { jobId := job_id, ops := preOps env parsed ++ lp.ops, clk := lp.clk
                  result := .error "No PDF files found" }
              else
                let unzippedOp := Op.dbSet job_id
                  (unzippedFields (env.clock lp.clk) entries.length
                    lp.state.validFilesProcessed lp.state.pdfFiles ex (unzipPathOf parsed))
                let invOp := Op.invokeLambda job_id
                let l2 := invoke_lambda2_sync env.lambda2Response
                if l2.success then
                  let del := delOps env parsed (lp.clk + 1)
                  let completedOp := Op.dbSet job_id (completedFields (env.clock del.2))
                  { jobId := job_id
                    ops := preOps env parsed ++ lp.ops ++ [unzippedOp, invOp] ++ del.1 ++ [completedOp]
                    clk := del.2 + 1
                    result := .ok { statusCode := 200, jobId := job_id, status := "SUCCESS" } }
                else
                  let error_msg := l2.error.getD "Unknown error"
                  let vfailOp := Op.dbSet job_id (vfailFields error_msg (env.clock (lp.clk + 1)))
                  { jobId := job_id
                    ops := preOps env parsed ++ lp.ops ++ [unzippedOp, invOp, vfailOp]
                    clk := lp.clk + 2
                    result := .error ("Lambda 2 failed: " ++ error_msg) }

/-- Embedding of `lambda_handler`: the `try` body plus the single outer
failure boundary, which unconditionally performs the `FAILED` update
(even when `job_id` is still `None`) and returns a structured result. -/
def lambda_handler (event : Event) (env : Env) : HandlerResult × List Op :=
  let b := handlerBody event env
  match b.result with
  | .ok r => (r, b.ops)
  | .error e =>
      ({ statusCode := 500, jobId := b.jobId, status := "FAILED", error := some e },
       b.ops ++ [Op.dbSet b.jobId (failFields e (env.clock b.clk))])

/-! ## Persistence semantics (`update_one` on the jobs collection) -/

/-- A stored job document: the `jobId` it was keyed by, plus its fields. -/
abbrev JobDoc := Option String × JobFieldSet

/-- Field-wise merge of a `$set` document into an existing document. -/
def mergeFields (old new : JobFieldSet) : JobFieldSet :=
  { createdOn := new.createdOn <|> old.createdOn
    type := new.type <|> old.type
    examCode := new.examCode <|> old.examCode
    courseCode := new.courseCode <|> old.courseCode
    uploadedBy := new.uploadedBy <|> old.uploadedBy
    eventSource := new.eventSource <|> old.eventSource
    status := new.status <|> old.status
    progress := new.progress <|> old.progress
    currentStep := new.currentStep <|> old.currentStep
    s3Bucket := new.s3Bucket <|> old.s3Bucket
    s3Key := new.s3Key <|> old.s3Key
    updatedOn := new.updatedOn <|> old.updatedOn
    totalFiles := new.totalFiles <|> old.totalFiles
    validFilesProcessed := new.validFilesProcessed <|> old.validFilesProcessed
    totalPDFs := new.totalPDFs <|> old.totalPDFs
    pdfFiles := new.pdfFiles <|> old.pdfFiles
    excelFile := new.excelFile <|> old.excelFile
    unzipFolderPath := new.unzipFolderPath <|> old.unzipFolderPath
    error := new.error <|> old.error
    originalZipDeleted := new.originalZipDeleted <|> old.originalZipDeleted
    zipDeletedAt := new.zipDeletedAt <|> old.zipDeletedAt }

/-- Applies `$set` to the first document matching the filter (no upsert). -/
def setFirst (jid : Option String) (f : JobFieldSet) : List JobDoc → List JobDoc
  | [] => []
  | (j, g) :: rest =>
      if j = jid then (j, mergeFields g f) :: rest
      else (j, g) :: setFirst jid f rest

/-- Apply one trace operation to the document store: `$setOnInsert` with
upsert creates the document only when no document matches; `$set`
merges into the first match; non-DB operations leave the store alone. -/
def applyDbOp (db : List JobDoc) : Op → List JobDoc
  | .dbSetOnInsert jid f => if db.any (fun d => d.1 = jid) then db else db ++ [(jid, f)]
  | .dbSet jid f => setFirst jid f db
  | _ => db

/-- Run a trace against the document store. -/
def runDb (ops : List Op) (db : List JobDoc) : List JobDoc :=
  ops.foldl applyDbOp db

/-! ## Blob-store semantics -/

/-- Run a trace against the blob store, modelled as a partial map from
(bucket, key) to body: `put` stores, a successful `delete` removes. -/
def s3Run : List Op → (Option String × String → Option Bytes) →
    (Option String × String → Option Bytes)
  | [], st => st
  | op :: rest, st =>
      s3Run rest
        (match op with
         | .s3Put b k body _ => fun q => if q = (b, k) then some body else st q
         | .s3Delete b (some k) => fun q => if q = (b, k) then none else st q
         | _ => st)

/-! ## Trace observations -/

/-- The progress field carried by a DB write, if any. -/
def progOf : Op → Option Nat
  | .dbSet _ f => f.progress
  | .dbSetOnInsert _ f => f.progress
  | _ => none

/-- All progress values persisted by a trace, in order. -/
def progList (ops : List Op) : List Nat :=
  ops.filterMap progOf

/-- The status field carried by a DB write, if any. -/
def statusOf : Op → Option String
  | .dbSet _ f => f.status
  | .dbSetOnInsert _ f => f.status
  | _ => none

/-- All status values written by a trace, in order. -/
def statusList (ops : List Op) : List String :=
  ops.filterMap statusOf

/-- Whether a trace operation writes a terminal status
(`COMPLETED` or `FAILED`). -/
def isTerminalWrite (op : Op) : Bool :=
  statusOf op == some "FAILED" || statusOf op == some "COMPLETED"

/-- Whether a trace operation is a downstream-lambda invocation. -/
def isInvoke : Op → Bool
  | .invokeLambda _ => true
  | _ => false

/-- Whether a trace operation is a blob-store upload. -/
def isPutOp : Op → Bool
  | .s3Put _ _ _ _ => true
  | _ => false

/-- No progress value is persisted strictly after a terminal-status
write. -/
def frozenAfterTerminal : List Op → Prop
  | [] => True
  | op :: rest =>
      (isTerminalWrite op = true → ∀ op' ∈ rest, progOf op' = none) ∧
      frozenAfterTerminal rest

/-! ## Characterizations of the loop body

The following definitions restate, entry by entry, what the extraction
loop does; they are proved equal to `entryOutcome` below and drive all
loop-level reasoning. -/

/-- The bytes of an entry (empty for unreadable entries). -/
def contents (e : ZipEntry) : Bytes :=
  match e.data with
  | .ok d => d
  | .error _ => { size := 0 }

/-- The lowercased base filename of an entry. -/
def lowerBase (e : ZipEntry) : String :=
  strToLower (basename e.name)

/-- An entry that the loop reads successfully and finds non-empty,
after the directory and junk filters. -/
def readable (e : ZipEntry) : Bool :=
  !strEndsWith e.name "/" && !is_junk_file e.name && e.data.isOk
    && (contents e).size != 0

/-- An entry dispatched to the PDF branch and accepted. -/
def acceptedPdf (e : ZipEntry) : Bool :=
  readable e && strEndsWith (lowerBase e) ".pdf"
    && is_valid_pdf (basename e.name) (contents e).size

/-- An entry dispatched to the spreadsheet branch and size-qualified
(the source accepts the first such entry and skips the rest as
duplicates). -/
def isQualifyingExcel (e : ZipEntry) : Bool :=
  readable e && !strEndsWith (lowerBase e) ".pdf"
    && (strEndsWith (lowerBase e) ".xlsx" || strEndsWith (lowerBase e) ".xls")
    && is_valid_excel (basename e.name) (contents e).size

/-- An entry dispatched to the generic branch (always accepted). -/
def acceptedOther (e : ZipEntry) : Bool :=
  readable e && !strEndsWith (lowerBase e) ".pdf"
    && !(strEndsWith (lowerBase e) ".xlsx" || strEndsWith (lowerBase e) ".xls")

/-- Whether an iteration reaches the end of the loop body (no
`continue`), i.e. performs an upload and is eligible for the periodic
progress checkpoint. -/
def fallsThrough (e : ZipEntry) : Bool :=
  acceptedPdf e || isQualifyingExcel e || acceptedOther e

/-- The PDF manifest item produced for an accepted PDF entry. -/
def mkPdfItem (bucket : Option String) (unzipPath : String) (e : ZipEntry) : PdfItem :=
  { s3Key := unzipPath ++ basename e.name
    fileName := basename e.name
    uniqueCode := splitextRoot (basename e.name)
    fileSize := (contents e).size
    s3Bucket := bucket }

/-- The spreadsheet manifest item produced for an accepted spreadsheet. -/
def mkExcelItem (bucket : Option String) (unzipPath : String) (e : ZipEntry) : ExcelItem :=
  { s3Key := unzipPath ++ basename e.name
    fileName := basename e.name
    fileSize := (contents e).size
    s3Bucket := bucket }

/-- The generic manifest item produced for an accepted generic entry. -/
def mkOtherItem (unzipPath : String) (e : ZipEntry) : OtherItem :=
  { s3Key := unzipPath ++ basename e.name
    fileName := basename e.name
    fileSize := (contents e).size }

/-- The uploads one iteration performs: one `put_object` when the entry
falls through (note that a duplicate spreadsheet is still uploaded),
none otherwise. -/
def putSpec (bucket : Option String) (unzipPath : String) (e : ZipEntry) : List Op :=
  if fallsThrough e then
    [Op.s3Put bucket (unzipPath ++ basename e.name) (contents e)
      (if strEndsWith (lowerBase e) ".pdf" then some pdfMime
       else if strEndsWith (lowerBase e) ".xlsx" || strEndsWith (lowerBase e) ".xls" then some xlMime
       else none)]
  else []

/-- The skip records one iteration appends, given whether a spreadsheet
was already accepted. -/
def skipSpec (e : ZipEntry) (hasExcel : Bool) : List SkipRec :=
  if strEndsWith e.name "/" then []
  else if is_junk_file e.name then [{ fileName := e.name, reason := "Junk" }]
  else
    match e.data with
    | .error msg => [{ fileName := e.name, reason := msg }]
    | .ok d =>
        if d.size == 0 then [{ fileName := basename e.name, reason := "Empty" }]
        else if strEndsWith (lowerBase e) ".pdf" then
          if is_valid_pdf (basename e.name) d.size then []
          else [{ fileName := basename e.name, reason := "Too small" }]
        else if strEndsWith (lowerBase e) ".xlsx" || strEndsWith (lowerBase e) ".xls" then
          if is_valid_excel (basename e.name) d.size then
            if hasExcel then [{ fileName := basename e.name, reason := "Duplicate" }] else []
          else [{ fileName := basename e.name, reason := "Too small" }]
        else []

/-- How much `valid_files_processed` grows in one iteration. -/
def validAdd (e : ZipEntry) (hasExcel : Bool) : Nat :=
  if acceptedPdf e || acceptedOther e || (isQualifyingExcel e && !hasExcel) then 1 else 0

/-- The expected sequence of periodically checkpointed progress values:
one checkpoint per fully processed entry whose 1-based archive index is
divisible by 10, valued `10 + (index * 30) / total`. -/
def checkpointSpec : List ZipEntry → Nat → Nat → List Nat
  | [], _, _ => []
  | e :: rest, idx, total =>
      (if fallsThrough e && (idx + 1) % 10 == 0
       then [10 + ((idx + 1) * 30) / total] else [])
        ++ checkpointSpec rest (idx + 1) total

/-- The names skipped with reason `"Duplicate"` in a skip list. -/
def dupNames (l : List SkipRec) : List String :=
  (l.filter (fun r => r.reason == "Duplicate")).map (fun r => r.fileName)

/-! ## Concrete fixtures used by counterexamples and witnesses -/

/-- A storage-event trigger for `Answer_Scripts_Zip_Files/E1/C1/batch.zip`. -/
def evS3fix : Event :=
  { records := [{ eventSource := "aws:s3", bucket := "bkt"
                  key := "Answer_Scripts_Zip_Files/E1/C1/batch.zip" }] }

/-- The canonical descriptor `parse_event` produces for `evS3fix` with uuid `"u"`. -/
def parsedFix : ParsedEvent :=
  { jobId := some "JOB-u", s3Bucket := some "bkt"
    s3Key := some "Answer_Scripts_Zip_Files/E1/C1/batch.zip"
    examCode := "E1", courseCode := "C1"
    uploadedBy := "S3_AUTO_TRIGGER", source := "S3_EVENT" }

/-- A trigger payload of neither recognized shape. -/
def evEmpty : Event := {}

/-- A 200/no-error validation response. -/
def okResp200 : Except String InvokeResponse :=
  .ok { statusCode := some 200, payload := { statusCode := some 200 } }

/-- A validation response with `statusCode` 500 and an `error` text. -/
def resp500 (e : String) : Except String InvokeResponse :=
  .ok { statusCode := some 200, payload := { statusCode := some 500, error := some e } }

def tinyPdfEntry : ZipEntry := { name := "tiny.pdf", data := .ok { size := 500 } }

def answerPdf : ZipEntry := { name := "answer.pdf", data := .ok { size := 2000 } }

def marksXlsx : ZipEntry := { name := "marks.xlsx", data := .ok { size := 3000 } }

/-- Nine valid distinct PDFs `f0.pdf` … `f8.pdf`. -/
def ninePdfs : List ZipEntry :=
  (List.range 9).map (fun i =>
    { name := "f" ++ toString i ++ ".pdf", data := .ok { size := 1024 } })

def xlsxA : ZipEntry := { name := "a.xlsx", data := .ok { size := 2048, tag := 1 } }

def xlsxB : ZipEntry := { name := "sub/b.xlsx", data := .ok { size := 2048, tag := 2 } }

/-- Base oracle set: uuid `"u"`, constant clock, validation succeeds,
zip deletion disabled. -/
def envS3Base : Env :=
  { uuid := "u", clock := fun _ => 0, archive := .error "NoSuchKey"
    lambda2Response := okResp200, deleteZipAfterSuccess := false
    deleteResult := .ok () }

/-- Archive holding only a 500-byte `tiny.pdf`. -/
def envC1 : Env := { envS3Base with archive := .ok [tinyPdfEntry] }

/-- Archive of exactly 10 processed entries: the 10th-entry checkpoint
reaches progress 40 before the `UNZIPPED` write writes 40 again. -/
def envC3ce : Env := { envS3Base with archive := .ok (ninePdfs ++ [marksXlsx]) }

/-- Archive of 11 entries whose 10th entry is a directory marker: the
`(idx + 1) % 10 == 0` checkpoint is skipped by its `continue`. -/
def envC4ce : Env :=
  { envS3Base with archive := .ok (ninePdfs ++ [{ name := "sub/", data := .ok { size := 0 } }, marksXlsx]) }

/-- A run whose downstream validation returns `statusCode` 500 with an
error text `e`, over an archive with one valid PDF and one valid
spreadsheet. -/
def envC8 (e : String) (c : Nat → Nat) : Env :=
  { envS3Base with
      clock := c
      archive := .ok [answerPdf, marksXlsx]
      lambda2Response := resp500 e }

/-- Two valid PDFs in different directories sharing base name `x.pdf`. -/
def pdfX1 : ZipEntry := { name := "a/x.pdf", data := .ok { size := 1024, tag := 1 } }

def pdfX2 : ZipEntry := { name := "b/x.pdf", data := .ok { size := 1024, tag := 2 } }

/-- Archive with the two colliding PDFs plus a valid spreadsheet. -/
def envC10 : Env := { envS3Base with archive := .ok [pdfX1, pdfX2, marksXlsx] }

/-- A success run with zip deletion enabled and succeeding. -/
def envC7ce : Env :=
  { envS3Base with archive := .ok [answerPdf, marksXlsx], deleteZipAfterSuccess := true }

/-- Master characterization of one loop iteration. -/
theorem entryOutcome_eq (bucket : Option String) (unzipPath : String)
    (e : ZipEntry) (st : ExtractState) :
    entryOutcome bucket unzipPath e st =
      ({ pdfFiles := st.pdfFiles ++ (if acceptedPdf e then [mkPdfItem bucket unzipPath e] else [])
         excelFile :=
           match st.excelFile with
           | some x => some x
           | none => if isQualifyingExcel e then some (mkExcelItem bucket unzipPath e) else none
         otherFiles := st.otherFiles ++ (if acceptedOther e then [mkOtherItem unzipPath e] else [])
         skippedFiles := st.skippedFiles ++ skipSpec e st.excelFile.isSome
         validFilesProcessed := st.validFilesProcessed + validAdd e st.excelFile.isSome },
       putSpec bucket unzipPath e,
       fallsThrough e) := by
  obtain ⟨pf, ex, of, sk, vf⟩ := st
  unfold entryOutcome
  by_cases hdir : strEndsWith e.name "/" = true
  · cases ex <;>
      simp [hdir, skipSpec, putSpec, fallsThrough, acceptedPdf, isQualifyingExcel,
        acceptedOther, readable, validAdd]
  · by_cases hjunk : is_junk_file e.name = true
    · cases ex <;>
        simp [hdir, hjunk, addSkip, skipSpec, putSpec, fallsThrough, acceptedPdf,
          isQualifyingExcel, acceptedOther, readable, validAdd]
    · cases hdata : e.data with
      | error msg =>
          cases ex <;>
            simp [hdir, hjunk, hdata, addSkip, skipSpec, putSpec, fallsThrough,
              acceptedPdf, isQualifyingExcel, acceptedOther, readable, validAdd,
              Except.isOk, Except.toBool]
      | ok d =>
          by_cases hlen : (d.size == 0) = true
          · have hd : d.size = 0 := by simpa using hlen
            cases ex <;>
              simp [hdir, hjunk, hdata, hlen, hd, addSkip, skipSpec, putSpec, fallsThrough,
                acceptedPdf, isQualifyingExcel, acceptedOther, readable, validAdd,
                contents, Except.isOk, Except.toBool]
          · have hne : ¬d.size = 0 := by simpa using hlen
            by_cases hpdf : strEndsWith (strToLower (basename e.name)) ".pdf" = true
            · by_cases hvp : is_valid_pdf (basename e.name) d.size = true
              · cases ex <;>
                  simp [hne, hdir, hjunk, hdata, hlen, hpdf, hvp, skipSpec, putSpec,
                    fallsThrough, acceptedPdf, isQualifyingExcel, acceptedOther,
                    readable, validAdd, contents, lowerBase, mkPdfItem,
                    Except.isOk, Except.toBool]
              · cases ex <;>
                  simp [hne, hdir, hjunk, hdata, hlen, hpdf, hvp, addSkip, skipSpec, putSpec,
                    fallsThrough, acceptedPdf, isQualifyingExcel, acceptedOther,
                    readable, validAdd, contents, lowerBase,
                    Except.isOk, Except.toBool]
            · by_cases hxl : (strEndsWith (strToLower (basename e.name)) ".xlsx"
                  || strEndsWith (strToLower (basename e.name)) ".xls") = true
              · by_cases hve : is_valid_excel (basename e.name) d.size = true
                · cases ex <;>
                    simp [hne, hdir, hjunk, hdata, hlen, hpdf, hxl, hve, addSkip, skipSpec,
                      putSpec, fallsThrough, acceptedPdf, isQualifyingExcel,
                      acceptedOther, readable, validAdd, contents, lowerBase,
                      mkExcelItem, Except.isOk, Except.toBool]
                · cases ex <;>
                    simp [hne, hdir, hjunk, hdata, hlen, hpdf, hxl, hve, addSkip, skipSpec,
                      putSpec, fallsThrough, acceptedPdf, isQualifyingExcel,
                      acceptedOther, readable, validAdd, contents, lowerBase,
                      Except.isOk, Except.toBool]
              · cases ex <;>
                  simp [hne, hdir, hjunk, hdata, hlen, hpdf, hxl, skipSpec, putSpec,
                    fallsThrough, acceptedPdf, isQualifyingExcel, acceptedOther,
                    readable, validAdd, contents, lowerBase, mkOtherItem,
                    Except.isOk, Except.toBool]

/-! ## Loop-level lemmas -/

theorem progList_append (a b : List Op) :
    progList (a ++ b) = progList a ++ progList b :=
  List.filterMap_append a b progOf

theorem statusList_append (a b : List Op) :
    statusList (a ++ b) = statusList a ++ statusList b :=
  List.filterMap_append a b statusOf

theorem putSpec_shape (bucket : Option String) (unzipPath : String) (e : ZipEntry) :
    ∀ op ∈ putSpec bucket unzipPath e, isPutOp op = true := by
  unfold putSpec
  split <;> simp [isPutOp]

theorem progList_putSpec (bucket : Option String) (unzipPath : String) (e : ZipEntry) :
    progList (putSpec bucket unzipPath e) = [] := by
  unfold putSpec
  split <;> simp [progList, progOf]

theorem progList_cons (op : Op) (ops : List Op) :
    progList (op :: ops) =
      (match progOf op with | some v => [v] | none => []) ++ progList ops := by
  simp only [progList, List.filterMap_cons]
  cases progOf op <;> simp

theorem statusList_putSpec (bucket : Option String) (unzipPath : String) (e : ZipEntry) :
    statusList (putSpec bucket unzipPath e) = [] := by
  unfold putSpec
  split <;> simp [statusList, statusOf]

/-- The progress values checkpointed by the extraction loop are exactly
`checkpointSpec`. -/
theorem extractLoop_progList (bucket : Option String) (unzipPath : String)
    (jid : Option String) (total : Nat) (c : Nat → Nat) :
    ∀ (entries : List ZipEntry) (idx : Nat) (st : ExtractState) (clk : Nat),
    progList (extractLoop bucket unzipPath jid total c entries idx st clk).ops =
      checkpointSpec entries idx total := by
  intro entries
  induction entries with
  | nil => intro idx st clk; simp [extractLoop, progList, checkpointSpec]
  | cons e rest ih =>
      intro idx st clk
      simp only [extractLoop, entryOutcome_eq, checkpointSpec]
      by_cases hcp : (fallsThrough e && (idx + 1) % 10 == 0) = true
      · simp [hcp, progList_append, progList_putSpec, progList_cons, progOf, ih]
      · simp [hcp, progList_append, progList_putSpec, progList_cons, progOf, ih]

/-- Every operation the extraction loop emits is either an upload or a
progress checkpoint keyed by the loop's job id. -/
theorem extractLoop_ops_shape (bucket : Option String) (unzipPath : String)
    (jid : Option String) (total : Nat) (c : Nat → Nat) :
    ∀ (entries : List ZipEntry) (idx : Nat) (st : ExtractState) (clk : Nat),
    ∀ op ∈ (extractLoop bucket unzipPath jid total c entries idx st clk).ops,
      isPutOp op = true ∨
      ∃ v t, op = Op.dbSet jid { progress := some v, updatedOn := some t } := by
  intro entries
  induction entries with
  | nil => intro idx st clk op h; simp [extractLoop] at h
  | cons e rest ih =>
      intro idx st clk op h
      simp only [extractLoop, entryOutcome_eq, List.mem_append] at h
      rcases h with (h | h) | h
      · exact Or.inl (putSpec_shape bucket unzipPath e op h)
      · right
        by_cases hcp : (fallsThrough e && (idx + 1) % 10 == 0) = true
        · simp only [hcp, if_true, List.mem_singleton] at h
          exact ⟨_, _, h⟩
        · simp [hcp] at h
      · exact ih (idx + 1) _ _ op h

/-- The loop writes no status values. -/
theorem extractLoop_statusList (bucket : Option String) (unzipPath : String)
    (jid : Option String) (total : Nat) (c : Nat → Nat)
    (entries : List ZipEntry) (idx : Nat) (st : ExtractState) (clk : Nat) :
    statusList (extractLoop bucket unzipPath jid total c entries idx st clk).ops = [] := by
  rw [statusList, List.filterMap_eq_nil_iff]
  intro op h
  rcases extractLoop_ops_shape bucket unzipPath jid total c entries idx st clk op h with
    hput | ⟨v, t, rfl⟩
  · cases op <;> simp_all [isPutOp, statusOf]
  · rfl

/-- The loop performs no downstream invocation and no terminal write. -/
theorem extractLoop_no_invoke (bucket : Option String) (unzipPath : String)
    (jid : Option String) (total : Nat) (c : Nat → Nat)
    (entries : List ZipEntry) (idx : Nat) (st : ExtractState) (clk : Nat) :
    ∀ op ∈ (extractLoop bucket unzipPath jid total c entries idx st clk).ops,
      isInvoke op = false ∧ isTerminalWrite op = false := by
  intro op h
  rcases extractLoop_ops_shape bucket unzipPath jid total c entries idx st clk op h with
    hput | ⟨v, t, rfl⟩
  · cases op <;> simp_all [isPutOp, isInvoke, isTerminalWrite, statusOf]
  · simp [isInvoke, isTerminalWrite, statusOf]

/-- Every value in `checkpointSpec` comes from a 1-based index in
`(idx, idx + length]`. -/
theorem checkpointSpec_mem (entries : List ZipEntry) :
    ∀ (idx total : Nat), ∀ v ∈ checkpointSpec entries idx total,
    ∃ i, idx < i ∧ i ≤ idx + entries.length ∧ v = 10 + (i * 30) / total := by
  induction entries with
  | nil => intro idx total v h; simp [checkpointSpec] at h
  | cons e rest ih =>
      intro idx total v h
      simp only [checkpointSpec, List.mem_append] at h
      rcases h with h | h
      · by_cases hcp : (fallsThrough e && (idx + 1) % 10 == 0) = true
        · simp only [hcp, if_true, List.mem_singleton] at h
          subst h
          exact ⟨idx + 1, by omega, by simp only [List.length_cons]; omega, rfl⟩
        · simp [hcp] at h
      · obtain ⟨i, h1, h2, h3⟩ := ih (idx + 1) total v h
        refine ⟨i, by omega, ?_, h3⟩
        simp only [List.length_cons] at h2 ⊢
        omega

/-- Checkpointed values never exceed the pre-validation cap of 40. -/
theorem checkpointSpec_le40 (entries : List ZipEntry) (idx total : Nat)
    (hle : idx + entries.length ≤ total) :
    ∀ v ∈ checkpointSpec entries idx total, v ≤ 40 := by
  intro v hv
  obtain ⟨i, h1, h2, rfl⟩ := checkpointSpec_mem entries idx total v hv
  have hit : i ≤ total := Nat.le_trans h2 hle
  have htpos : 0 < total := by omega
  have : (i * 30) / total ≤ (total * 30) / total :=
    Nat.div_le_div_right (Nat.mul_le_mul_right 30 hit)
  have h30 : (total * 30) / total = 30 := by
    rw [Nat.mul_comm]
    exact Nat.mul_div_cancel 30 htpos
  omega

/-- Every element of `checkpointSpec` is at least the first candidate
checkpoint value. -/
theorem checkpointSpec_lb (entries : List ZipEntry) :
    ∀ (idx total : Nat), ∀ v ∈ checkpointSpec entries idx total,
    10 + ((idx + 1) * 30) / total ≤ v := by
  intro idx total v hv
  obtain ⟨i, h1, _, rfl⟩ := checkpointSpec_mem entries idx total v hv
  have : ((idx + 1) * 30) / total ≤ (i * 30) / total :=
    Nat.div_le_div_right (Nat.mul_le_mul_right 30 h1)
  omega

/-- The checkpointed progress values are monotonically non-decreasing. -/
theorem checkpointSpec_chain (entries : List ZipEntry) :
    ∀ (idx total : Nat), List.Chain' (· ≤ ·) (checkpointSpec entries idx total) := by
  induction entries with
  | nil => intro idx total; simp [checkpointSpec]
  | cons e rest ih =>
      intro idx total
      simp only [checkpointSpec]
      by_cases hcp : (fallsThrough e && (idx + 1) % 10 == 0) = true
      · simp only [hcp, if_true, List.singleton_append]
        rw [List.chain'_cons']
        refine ⟨?_, ih (idx + 1) total⟩
        intro y hy
        have hmem : y ∈ checkpointSpec rest (idx + 1) total :=
          List.mem_of_mem_head? hy
        have := checkpointSpec_lb rest (idx + 1) total y hmem
        have hmono : ((idx + 1) * 30) / total ≤ ((idx + 1 + 1) * 30) / total :=
          Nat.div_le_div_right (Nat.mul_le_mul_right 30 (Nat.le_succ _))
        omega
      · simpa [hcp] using ih (idx + 1) total

/-! ## Loop state characterization -/

/-- The final PDF manifest is the initial one extended by one item per
accepted PDF entry, in archive order. -/
theorem extractLoop_pdfFiles (bucket : Option String) (unzipPath : String)
    (jid : Option String) (total : Nat) (c : Nat → Nat) :
    ∀ (entries : List ZipEntry) (idx : Nat) (st : ExtractState) (clk : Nat),
    (extractLoop bucket unzipPath jid total c entries idx st clk).state.pdfFiles =
      st.pdfFiles ++ (entries.filter acceptedPdf).map (mkPdfItem bucket unzipPath) := by
  intro entries
  induction entries with
  | nil => intro idx st clk; simp [extractLoop]
  | cons e rest ih =>
      intro idx st clk
      simp only [extractLoop, entryOutcome_eq, List.filter_cons]
      by_cases hpdf : acceptedPdf e = true
      · simp [hpdf, ih, List.append_assoc]
      · simp [hpdf, ih]

/-- Once a spreadsheet has been accepted, it stays accepted. -/
theorem extractLoop_excel_some (bucket : Option String) (unzipPath : String)
    (jid : Option String) (total : Nat) (c : Nat → Nat) :
    ∀ (entries : List ZipEntry) (idx : Nat) (st : ExtractState) (clk : Nat)
      (x : ExcelItem), st.excelFile = some x →
    (extractLoop bucket unzipPath jid total c entries idx st clk).state.excelFile = some x := by
  intro entries
  induction entries with
  | nil => intro idx st clk x hx; simpa [extractLoop] using hx
  | cons e rest ih =>
      intro idx st clk x hx
      simp only [extractLoop, entryOutcome_eq]
      exact ih (idx + 1) _ _ x (by simp [hx])

/-- The accepted spreadsheet is the first qualifying one in archive
order (or the one already accepted before the loop started). -/
theorem extractLoop_excelFile (bucket : Option String) (unzipPath : String)
    (jid : Option String) (total : Nat) (c : Nat → Nat) :
    ∀ (entries : List ZipEntry) (idx : Nat) (st : ExtractState) (clk : Nat),
    st.excelFile = none →
    (extractLoop bucket unzipPath jid total c entries idx st clk).state.excelFile =
      ((entries.filter isQualifyingExcel).head?).map (mkExcelItem bucket unzipPath) := by
  intro entries
  induction entries with
  | nil => intro idx st clk hx; simpa [extractLoop] using hx
  | cons e rest ih =>
      intro idx st clk hx
      simp only [extractLoop, entryOutcome_eq, List.filter_cons]
      by_cases hq : isQualifyingExcel e = true
      · simp only [hq, if_true, List.head?_cons, Option.map_some]
        exact extractLoop_excel_some _ _ _ _ _ _ _ _ _ _ (by simp [hx, hq])
      · simp only [hq, if_false, Bool.false_eq_true]
        exact ih (idx + 1) _ _ (by simp [hx, hq])

theorem dupNames_append (a b : List SkipRec) :
    dupNames (a ++ b) = dupNames a ++ dupNames b := by
  simp [dupNames, List.filter_append]

/-- Under the assumption that no individual read error text equals
`"Duplicate"`, the only duplicate skip an iteration can add is a
qualifying spreadsheet arriving after one was accepted. -/
theorem dupNames_skipSpec (e : ZipEntry) (hasExcel : Bool)
    (hre : ∀ m, e.data = .error m → m ≠ "Duplicate") :
    dupNames (skipSpec e hasExcel) =
      if hasExcel && isQualifyingExcel e then [basename e.name] else [] := by
  unfold skipSpec
  by_cases hdir : strEndsWith e.name "/" = true
  · simp [hdir, dupNames, isQualifyingExcel, readable, hdir]
  · by_cases hjunk : is_junk_file e.name = true
    · simp [hdir, hjunk, dupNames, isQualifyingExcel, readable]
    · cases hdata : e.data with
      | error msg =>
          have := hre msg hdata
          simp [hdir, hjunk, hdata, dupNames, isQualifyingExcel, readable, this,
            Except.isOk, Except.toBool]
      | ok d =>
          by_cases hlen : (d.size == 0) = true
          · have hd : d.size = 0 := by simpa using hlen
            simp [hdir, hjunk, hdata, hlen, hd, dupNames, isQualifyingExcel, readable, contents,
              Except.isOk, Except.toBool]
          · have hne : ¬d.size = 0 := by simpa using hlen
            by_cases hpdf : strEndsWith (strToLower (basename e.name)) ".pdf" = true
            · by_cases hvp : is_valid_pdf (basename e.name) d.size = true <;>
                simp [hdir, hjunk, hdata, hlen, hpdf, hvp, hne, dupNames,
                  isQualifyingExcel, readable, contents, lowerBase,
                  Except.isOk, Except.toBool]
            · by_cases hxl : (strEndsWith (strToLower (basename e.name)) ".xlsx"
                  || strEndsWith (strToLower (basename e.name)) ".xls") = true
              · by_cases hve : is_valid_excel (basename e.name) d.size = true
                · cases hasExcel <;>
                    simp [hdir, hjunk, hdata, hlen, hpdf, hxl, hve, hne, dupNames,
                      isQualifyingExcel, readable, contents, lowerBase,
                      Except.isOk, Except.toBool]
                · simp [hdir, hjunk, hdata, hlen, hpdf, hxl, hve, hne, dupNames,
                    isQualifyingExcel, readable, contents, lowerBase,
                    Except.isOk, Except.toBool]
              · simp [hdir, hjunk, hdata, hlen, hpdf, hxl, hne, dupNames,
                  isQualifyingExcel, readable, contents, lowerBase,
                  Except.isOk, Except.toBool]

/-- With a spreadsheet already accepted, every further qualifying
spreadsheet is skipped as a duplicate, in order. -/
theorem extractLoop_dup_some (bucket : Option String) (unzipPath : String)
    (jid : Option String) (total : Nat) (c : Nat → Nat) :
    ∀ (entries : List ZipEntry) (idx : Nat) (st : ExtractState) (clk : Nat)
      (x : ExcelItem),
    (∀ e ∈ entries, ∀ m, e.data = .error m → m ≠ "Duplicate") →
    st.excelFile = some x →
    dupNames (extractLoop bucket unzipPath jid total c entries idx st clk).state.skippedFiles =
      dupNames st.skippedFiles ++
        (entries.filter isQualifyingExcel).map (fun e => basename e.name) := by
  intro entries
  induction entries with
  | nil => intro idx st clk x _ _; simp [extractLoop]
  | cons e rest ih =>
      intro idx st clk x hre hx
      have hx2 : (entryOutcome bucket unzipPath e st).1.excelFile = some x := by
        rw [entryOutcome_eq]; simp [hx]
      have hsk : (entryOutcome bucket unzipPath e st).1.skippedFiles =
          st.skippedFiles ++ skipSpec e st.excelFile.isSome := by
        rw [entryOutcome_eq]
      simp only [extractLoop, List.filter_cons]
      rw [ih (idx + 1) (entryOutcome bucket unzipPath e st).1 _ x
        (fun e2 he => hre e2 (List.mem_cons_of_mem _ he)) hx2]
      rw [hsk, dupNames_append, dupNames_skipSpec e _ (hre e (List.mem_cons_self e rest))]
      by_cases hq : isQualifyingExcel e = true
      · simp [hq, hx, List.append_assoc]
      · simp [hq, hx]

/-- Starting with no accepted spreadsheet, the duplicate skips are
exactly the qualifying spreadsheets after the first one. -/
theorem extractLoop_dup_none (bucket : Option String) (unzipPath : String)
    (jid : Option String) (total : Nat) (c : Nat → Nat) :
    ∀ (entries : List ZipEntry) (idx : Nat) (st : ExtractState) (clk : Nat),
    (∀ e ∈ entries, ∀ m, e.data = .error m → m ≠ "Duplicate") →
    st.excelFile = none →
    dupNames (extractLoop bucket unzipPath jid total c entries idx st clk).state.skippedFiles =
      dupNames st.skippedFiles ++
        ((entries.filter isQualifyingExcel).drop 1).map (fun e => basename e.name) := by
  intro entries
  induction entries with
  | nil => intro idx st clk _ _; simp [extractLoop]
  | cons e rest ih =>
      intro idx st clk hre hx
      have hsk : (entryOutcome bucket unzipPath e st).1.skippedFiles =
          st.skippedFiles ++ skipSpec e st.excelFile.isSome := by
        rw [entryOutcome_eq]
      simp only [extractLoop, List.filter_cons]
      by_cases hq : isQualifyingExcel e = true
      · have hx2 : (entryOutcome bucket unzipPath e st).1.excelFile =
            some (mkExcelItem bucket unzipPath e) := by
          rw [entryOutcome_eq]; simp [hx, hq]
        rw [extractLoop_dup_some bucket unzipPath jid total c rest (idx + 1)
          (entryOutcome bucket unzipPath e st).1 _ (mkExcelItem bucket unzipPath e)
          (fun e2 he => hre e2 (List.mem_cons_of_mem _ he)) hx2]
        rw [hsk, dupNames_append, dupNames_skipSpec e _ (hre e (List.mem_cons_self e rest))]
        simp [hq, hx]
      · have hx2 : (entryOutcome bucket unzipPath e st).1.excelFile = none := by
          rw [entryOutcome_eq]; simp [hx, hq]
        rw [ih (idx + 1) (entryOutcome bucket unzipPath e st).1 _
          (fun e2 he => hre e2 (List.mem_cons_of_mem _ he)) hx2]
        rw [hsk, dupNames_append, dupNames_skipSpec e _ (hre e (List.mem_cons_self e rest))]
        simp [hq, hx]

/-! ## Handler path equations -/

section PathEquations

variable (event : Event) (env : Env)

theorem handler_parse_error {e : String}
    (hp : parse_event event env.uuid = .error e) :
    lambda_handler event env =
      ({ statusCode := 500, jobId := none, status := "FAILED", error := some e },
       [Op.dbSet none (failFields e (env.clock 0))]) := by
  unfold lambda_handler handlerBody
  rw [hp]
  simp

theorem handler_parse_none
    (hp : parse_event event env.uuid = .ok none) :
    lambda_handler event env =
      ({ statusCode := 500, jobId := none, status := "FAILED", error := some noneSubscriptMsg },
       [Op.dbSet none (failFields noneSubscriptMsg (env.clock 0))]) := by
  unfold lambda_handler handlerBody
  rw [hp]
  simp

theorem handler_archive_error {parsed : ParsedEvent} {e : String}
    (hp : parse_event event env.uuid = .ok (some parsed))
    (ha : env.archive = .error e) :
    lambda_handler event env =
      ({ statusCode := 500, jobId := parsed.jobId, status := "FAILED", error := some e },
       preOps env parsed ++ [Op.dbSet parsed.jobId (failFields e (env.clock 1))]) := by
  unfold lambda_handler handlerBody
  rw [hp, ha]

theorem handler_noExcel {parsed : ParsedEvent} {entries : List ZipEntry}
    (hp : parse_event event env.uuid = .ok (some parsed))
    (ha : env.archive = .ok entries)
    (hex : (loopOut env parsed entries).state.excelFile = none) :
    lambda_handler event env =
      ({ statusCode := 500, jobId := parsed.jobId, status := "FAILED"
         error := some "No Excel file found" },
       preOps env parsed ++ (loopOut env parsed entries).ops ++
         [Op.dbSet parsed.jobId
           (failFields "No Excel file found" (env.clock (loopOut env parsed entries).clk))]) := by
  unfold lambda_handler handlerBody
  rw [hp, ha]
  simp [hex]

theorem handler_noPdf {parsed : ParsedEvent} {entries : List ZipEntry} {ex : ExcelItem}
    (hp : parse_event event env.uuid = .ok (some parsed))
    (ha : env.archive = .ok entries)
    (hex : (loopOut env parsed entries).state.excelFile = some ex)
    (hpl : (loopOut env parsed entries).state.pdfFiles.length = 0) :
    lambda_handler event env =
      ({ statusCode := 500, jobId := parsed.jobId, status := "FAILED"
         error := some "No PDF files found" },
       preOps env parsed ++ (loopOut env parsed entries).ops ++
         [Op.dbSet parsed.jobId
           (failFields "No PDF files found" (env.clock (loopOut env parsed entries).clk))]) := by
  unfold lambda_handler handlerBody
  rw [hp, ha]
  simp [hex, hpl]

theorem handler_vfail {parsed : ParsedEvent} {entries : List ZipEntry} {ex : ExcelItem}
    (hp : parse_event event env.uuid = .ok (some parsed))
    (ha : env.archive = .ok entries)
    (hex : (loopOut env parsed entries).state.excelFile = some ex)
    (hpl : (loopOut env parsed entries).state.pdfFiles.length ≠ 0)
    (hs : (invoke_lambda2_sync env.lambda2Response).success = false) :
    lambda_handler event env =
      ({ statusCode := 500, jobId := parsed.jobId, status := "FAILED"
         error := some ("Lambda 2 failed: " ++
           ((invoke_lambda2_sync env.lambda2Response).error.getD "Unknown error")) },
       preOps env parsed ++ (loopOut env parsed entries).ops ++
         [Op.dbSet parsed.jobId
            (unzippedFields (env.clock (loopOut env parsed entries).clk) entries.length
              (loopOut env parsed entries).state.validFilesProcessed
              (loopOut env parsed entries).state.pdfFiles ex (unzipPathOf parsed)),
          Op.invokeLambda parsed.jobId,
          Op.dbSet parsed.jobId
            (vfailFields ((invoke_lambda2_sync env.lambda2Response).error.getD "Unknown error")
              (env.clock ((loopOut env parsed entries).clk + 1))),
          Op.dbSet parsed.jobId
            (failFields ("Lambda 2 failed: " ++
                ((invoke_lambda2_sync env.lambda2Response).error.getD "Unknown error"))
              (env.clock ((loopOut env parsed entries).clk + 2)))]) := by
  unfold lambda_handler handlerBody
  rw [hp, ha]
  simp [hex, hpl, hs]

theorem handler_success {parsed : ParsedEvent} {entries : List ZipEntry} {ex : ExcelItem}
    (hp : parse_event event env.uuid = .ok (some parsed))
    (ha : env.archive = .ok entries)
    (hex : (loopOut env parsed entries).state.excelFile = some ex)
    (hpl : (loopOut env parsed entries).state.pdfFiles.length ≠ 0)
    (hs : (invoke_lambda2_sync env.lambda2Response).success = true) :
    lambda_handler event env =
      ({ statusCode := 200, jobId := parsed.jobId, status := "SUCCESS", error := none },
       preOps env parsed ++ (loopOut env parsed entries).ops ++
         [Op.dbSet parsed.jobId
            (unzippedFields (env.clock (loopOut env parsed entries).clk) entries.length
              (loopOut env parsed entries).state.validFilesProcessed
              (loopOut env parsed entries).state.pdfFiles ex (unzipPathOf parsed)),
          Op.invokeLambda parsed.jobId] ++
         (delOps env parsed ((loopOut env parsed entries).clk + 1)).1 ++
         [Op.dbSet parsed.jobId
           (completedFields (env.clock (delOps env parsed ((loopOut env parsed entries).clk + 1)).2))]) := by
  unfold lambda_handler handlerBody
  rw [hp, ha]
  simp [hex, hpl, hs, List.append_assoc]

end PathEquations

/-! ## Shared handler-level lemmas -/

/-- Any single invocation performs at most one downstream-lambda call. -/
theorem handler_invoke_count (event : Event) (env : Env) :
    List.countP isInvoke (lambda_handler event env).2 ≤ 1 := by
  have hloopz : ∀ (p : ParsedEvent) (entries : List ZipEntry),
      List.countP isInvoke (loopOut env p entries).ops = 0 := by
    intro p entries
    rw [List.countP_eq_zero]
    intro op h
    have := (extractLoop_no_invoke _ _ _ _ _ _ _ _ _ op h).1
    simp [this]
  have hpre : ∀ p : ParsedEvent, List.countP isInvoke (preOps env p) = 0 := by
    intro p; simp [preOps, isInvoke]
  have hdel : ∀ (p : ParsedEvent) (n : Nat),
      List.countP isInvoke (delOps env p n).1 = 0 := by
    intro p n
    unfold delOps
    split
    · split <;> simp [isInvoke]
    · simp
  cases hp : parse_event event env.uuid with
  | error e => rw [handler_parse_error event env hp]; simp [isInvoke]
  | ok po =>
      cases po with
      | none => rw [handler_parse_none event env hp]; simp [isInvoke]
      | some parsed =>
          cases ha : env.archive with
          | error e =>
              rw [handler_archive_error event env hp ha]
              simp [List.countP_append, hpre, isInvoke]
          | ok entries =>
              cases hex : (loopOut env parsed entries).state.excelFile with
              | none =>
                  rw [handler_noExcel event env hp ha hex]
                  simp [List.countP_append, hpre, hloopz, isInvoke]
              | some ex =>
                  by_cases hpl : (loopOut env parsed entries).state.pdfFiles.length = 0
                  · rw [handler_noPdf event env hp ha hex hpl]
                    simp [List.countP_append, hpre, hloopz, isInvoke]
                  · cases hs : (invoke_lambda2_sync env.lambda2Response).success with
                    | false =>
                        rw [handler_vfail event env hp ha hex hpl hs]
                        simp [List.countP_append, List.countP_cons, hpre, hloopz, isInvoke]
                    | true =>
                        rw [handler_success event env hp ha hex hpl hs]
                        simp [List.countP_append, List.countP_cons, hpre, hloopz, hdel, isInvoke]

/-! ## Claim C9 -/

/-- C9, counterexample: a callee response whose payload carries an HTTP
200 status together with an explicit `error` field (and no
`errorMessage`) is reported as a *success* by the invoker, so "every
other response shape (explicit error field, ...) is reported as
failure" fails as stated. -/
theorem c9_error_field_with_200_reported_success :
    (invoke_lambda2_sync (.ok
      { statusCode := some 200
        payload := { errorMessage := none, statusCode := some 200, error := some "boom" } })).success
        = true ∧
    ({ errorMessage := none, statusCode := some 200, error := some "boom" }
      : InvokePayload).error.isSome = true := by
  decide

/-- C9 (amended): the invoker reports success iff the call returned
without a transport exception, its payload has no `errorMessage` field,
and the effective status code (the payload's `statusCode`, defaulting to
the transport status, defaulting to 0) is 200 — an `error` field alone
does not force failure; every failure carries a captured error message;
and the handler makes at most one invocation attempt (exactly one
whenever the pipeline reaches the validation step). -/
theorem c9_invoker_success_characterization :
    (∀ r : Except String InvokeResponse,
      (invoke_lambda2_sync r).success = true ↔
        ∃ resp, r = .ok resp ∧ resp.payload.errorMessage = none ∧
          resp.payload.statusCode.getD (resp.statusCode.getD 0) = 200) ∧
    (∀ r : Except String InvokeResponse,
      (invoke_lambda2_sync r).success = true ∨
        (invoke_lambda2_sync r).error.isSome = true) ∧
    (∀ (event : Event) (env : Env),
      List.countP isInvoke (lambda_handler event env).2 ≤ 1) := by
  refine ⟨?_, ?_, handler_invoke_count⟩
  · intro r
    cases r with
    | error e => simp [invoke_lambda2_sync]
    | ok resp =>
        cases hm : resp.payload.errorMessage with
        | some m => simp [invoke_lambda2_sync, hm]
        | none =>
            by_cases hsc : resp.payload.statusCode.getD (resp.statusCode.getD 0) = 200
            · simp [invoke_lambda2_sync, hm, hsc]
            · simp [invoke_lambda2_sync, hm, hsc]
  · intro r
    cases r with
    | error e => simp [invoke_lambda2_sync]
    | ok resp =>
        cases hm : resp.payload.errorMessage with
        | some m => simp [invoke_lambda2_sync, hm]
        | none =>
            by_cases hsc : resp.payload.statusCode.getD (resp.statusCode.getD 0) = 200
            · simp [invoke_lambda2_sync, hm, hsc]
            · simp [invoke_lambda2_sync, hm, hsc]

example : is_junk_file ".DS_Store" = true := by decide
example : is_junk_file "tiny.pdf" = false := by decide
example : is_junk_file "a/x.pdf" = false := by decide
example : is_junk_file "photo_cache.pdf" = true := by decide
example : is_valid_pdf "tiny.pdf" 500 = false := by decide
example : is_valid_pdf "answer.pdf" 2000 = true := by decide
example : basename "a/b/c.pdf" = "c.pdf" := by decide
example : splitextRoot "file.tar.pdf" = "file.tar" := by decide
example : splitextRoot "x.pdf" = "x" := by decide

/-! ## Claim C1 -/

set_option maxRecDepth 4000 in
/-- C1, counterexample: for the archive whose only entry is a 500-byte
`tiny.pdf`, extraction fails — but with `"No Excel file found"` (the
missing-spreadsheet check precedes the missing-PDF check), not with the
claimed `"No PDF files found"`. -/
theorem c1_counterexample_error_is_noExcel :
    (lambda_handler evS3fix envC1).1 =
      { statusCode := 500, jobId := some "JOB-u", status := "FAILED"
        error := some "No Excel file found" } ∧
    (lambda_handler evS3fix envC1).1.error ≠ some "No PDF files found" ∧
    statusList (lambda_handler evS3fix envC1).2 = ["PENDING", "UNZIPPING", "FAILED"] := by
  decide

/-- C1 (amended): for every archive whose only non-directory entry is a
PDF-named file below the 1024-byte threshold, extraction fails, the
terminal write is status `FAILED` with the error field populated — but
the error text is `"No Excel file found"`, because the source checks
`excel_file is None` before `len(pdf_files) == 0`. -/
theorem c1_tiny_pdf_fails_with_noExcel (event : Event) (env : Env)
    (parsed : ParsedEvent) (pre post : List ZipEntry) (name : String) (d : Bytes)
    (hp : parse_event event env.uuid = .ok (some parsed))
    (ha : env.archive = .ok (pre ++ { name := name, data := .ok d } :: post))
    (hpre : ∀ z ∈ pre, strEndsWith z.name "/" = true)
    (hpost : ∀ z ∈ post, strEndsWith z.name "/" = true)
    (hpdf : strEndsWith (strToLower (basename name)) ".pdf" = true)
    (hsize : d.size < 1024) :
    (lambda_handler event env).1 =
      { statusCode := 500, jobId := parsed.jobId, status := "FAILED"
        error := some "No Excel file found" } ∧
    ∃ t, (lambda_handler event env).2.getLast? =
      some (Op.dbSet parsed.jobId (failFields "No Excel file found" t)) := by
  have hex : (loopOut env parsed
      (pre ++ { name := name, data := .ok d } :: post)).state.excelFile = none := by
    unfold loopOut
    rw [extractLoop_excelFile _ _ _ _ _ _ _ _ _ rfl]
    have hfil : (pre ++ { name := name, data := .ok d } :: post).filter
        isQualifyingExcel = [] := by
      rw [List.filter_eq_nil_iff]
      intro z hz
      rcases List.mem_append.mp hz with hz | hz
      · simp [isQualifyingExcel, readable, hpre z hz]
      · rcases List.mem_cons.mp hz with rfl | hz
        · simp [isQualifyingExcel, lowerBase, hpdf]
        · simp [isQualifyingExcel, readable, hpost z hz]
    rw [hfil]
    rfl
  rw [handler_noExcel event env hp ha hex]
  refine ⟨rfl, env.clock (loopOut env parsed
    (pre ++ { name := name, data := .ok d } :: post)).clk, ?_⟩
  exact List.getLast?_concat _

set_option maxRecDepth 4000 in
/-- Witness for `c1_tiny_pdf_fails_with_noExcel` at the concrete
`tiny.pdf` archive. -/
theorem c1_tiny_pdf_fails_with_noExcel_witness :
    strEndsWith (strToLower (basename "tiny.pdf")) ".pdf" = true ∧
    (lambda_handler evS3fix envC1).1 =
      { statusCode := 500, jobId := parsedFix.jobId, status := "FAILED"
        error := some "No Excel file found" } :=
  ⟨by decide,
   (c1_tiny_pdf_fails_with_noExcel evS3fix envC1 parsedFix [] [] "tiny.pdf"
      { size := 500 } (by decide) (by decide)
      (by simp) (by simp) (by decide) (by decide)).1⟩

/-! ## Claim C2 -/

/-- C2, counterexample: when trigger normalization fails there is no job
identifier, yet the handler does *not* skip persistence — the outer
boundary still issues a `FAILED` update (filtered on `jobId = None`), so
"fails fast without performing any persistence operation" is false. -/
theorem c2_counterexample_persistence_on_parse_failure :
    parse_event evEmpty envS3Base.uuid = .error "Invalid event format" ∧
    (lambda_handler evEmpty envS3Base).2 =
      [Op.dbSet none (failFields "Invalid event format" 0)] ∧
    (lambda_handler evEmpty envS3Base).2 ≠ [] := by
  decide

/-- C2 (amended): every exception — including a trigger-normalization
failure — is caught by the single outer boundary, which unconditionally
writes status `FAILED` with the error text (against a `None` job id
when normalization failed, matching no document) and returns a
structured failure result. -/
theorem c2_failure_boundary_unconditional :
    (∀ (event : Event) (env : Env) (e : String),
      parse_event event env.uuid = .error e →
      lambda_handler event env =
        ({ statusCode := 500, jobId := none, status := "FAILED", error := some e },
         [Op.dbSet none (failFields e (env.clock 0))])) ∧
    (∀ (event : Event) (env : Env) (e : String),
      (handlerBody event env).result = .error e →
      (lambda_handler event env).1 =
        { statusCode := 500, jobId := (handlerBody event env).jobId
          status := "FAILED", error := some e } ∧
      (lambda_handler event env).2 =
        (handlerBody event env).ops ++
          [Op.dbSet (handlerBody event env).jobId
            (failFields e (env.clock (handlerBody event env).clk))]) := by
  constructor
  · intro event env e hp
    exact handler_parse_error event env hp
  · intro event env e h
    constructor <;> simp [lambda_handler, h]

/-- Witness for `c2_failure_boundary_unconditional` at a trigger of
neither recognized shape. -/
theorem c2_failure_boundary_unconditional_witness :
    parse_event evEmpty envS3Base.uuid = .error "Invalid event format" ∧
    lambda_handler evEmpty envS3Base =
      ({ statusCode := 500, jobId := none, status := "FAILED"
         error := some "Invalid event format" },
       [Op.dbSet none (failFields "Invalid event format" (envS3Base.clock 0))]) :=
  ⟨by decide,
   c2_failure_boundary_unconditional.1 evEmpty envS3Base "Invalid event format" (by decide)⟩

/-! ## Claim C8 -/

set_option maxRecDepth 4000 in
/-- C8: when validation returns `statusCode` 500 with error text `e`,
the job record receives, in order, `PENDING`, `UNZIPPING`, `UNZIPPED`,
`VALIDATION_FAILED` (with `"Validation failed: " ++ e` persisted) and
finally `FAILED`; `VALIDATION_FAILED` is never the final status, and the
returned error contains the callee's error text. -/
theorem c8_validation_failure_status_sequence (e : String) (c : Nat → Nat) :
    statusList (lambda_handler evS3fix (envC8 e c)).2 =
      ["PENDING", "UNZIPPING", "UNZIPPED", "VALIDATION_FAILED", "FAILED"] ∧
    (statusList (lambda_handler evS3fix (envC8 e c)).2).getLast? = some "FAILED" ∧
    (lambda_handler evS3fix (envC8 e c)).1 =
      { statusCode := 500, jobId := some "JOB-u", status := "FAILED"
        error := some ("Lambda 2 failed: " ++ e) } ∧
    (∃ t, Op.dbSet (some "JOB-u") (vfailFields e t) ∈ (lambda_handler evS3fix (envC8 e c)).2) := by
  have hp : parse_event evS3fix (envC8 e c).uuid = .ok (some parsedFix) := by
    show parse_event evS3fix "u" = .ok (some parsedFix)
    decide
  have ha : (envC8 e c).archive = .ok [answerPdf, marksXlsx] := rfl
  have hfil : ([answerPdf, marksXlsx].filter isQualifyingExcel) = [marksXlsx] := by decide
  have hfilp : ([answerPdf, marksXlsx].filter acceptedPdf) = [answerPdf] := by decide
  have hex : (loopOut (envC8 e c) parsedFix [answerPdf, marksXlsx]).state.excelFile =
      some (mkExcelItem parsedFix.s3Bucket (unzipPathOf parsedFix) marksXlsx) := by
    unfold loopOut
    rw [extractLoop_excelFile _ _ _ _ _ _ _ _ _ rfl, hfil]
    rfl
  have hpl : (loopOut (envC8 e c) parsedFix [answerPdf, marksXlsx]).state.pdfFiles.length ≠ 0 := by
    unfold loopOut
    rw [extractLoop_pdfFiles, hfilp]
    simp
  have hs : (invoke_lambda2_sync (envC8 e c).lambda2Response).success = false := rfl
  have herr : (invoke_lambda2_sync (envC8 e c).lambda2Response).error.getD "Unknown error" = e := rfl
  rw [handler_vfail evS3fix (envC8 e c) hp ha hex hpl hs]
  have hsl : statusList (loopOut (envC8 e c) parsedFix [answerPdf, marksXlsx]).ops = [] := by
    unfold loopOut
    exact extractLoop_statusList _ _ _ _ _ _ _ _ _
  refine ⟨?_, ?_, ?_, ?_⟩
  · rw [statusList_append, statusList_append, hsl]
    simp [statusList, statusOf, preOps, createFields, unzippingFields,
      unzippedFields, vfailFields, failFields, herr]
  · rw [statusList_append, statusList_append, hsl]
    simp [statusList, statusOf, preOps, createFields, unzippingFields,
      unzippedFields, vfailFields, failFields, herr]
  · simp [herr, parsedFix]
  · refine ⟨(envC8 e c).clock ((loopOut (envC8 e c) parsedFix [answerPdf, marksXlsx]).clk + 1), ?_⟩
    rw [herr]
    exact List.mem_append_right _ (by simp [parsedFix])

/-! ## Claim C3 -/

theorem mem_of_getLast? {α : Type} {l : List α} {x : α} (h : x ∈ l.getLast?) : x ∈ l := by
  obtain ⟨hne, rfl⟩ := List.mem_getLast?_eq_getLast h
  exact List.getLast_mem hne

/-- Non-terminal writes followed by a frozen tail stay frozen. -/
theorem frozen_append (A B : List Op)
    (hA : ∀ op ∈ A, isTerminalWrite op = false)
    (hB : frozenAfterTerminal B) :
    frozenAfterTerminal (A ++ B) := by
  induction A with
  | nil => simpa using hB
  | cons a A ih =>
      rw [List.cons_append]
      refine ⟨fun h => ?_, ih (fun op hop => hA op (List.mem_cons_of_mem a hop))⟩
      rw [hA a (List.mem_cons_self a A)] at h
      cases h

/-- A trace of non-terminal writes followed by one final operation never
writes progress after a terminal write. -/
theorem frozen_snoc (A : List Op) (z : Op)
    (hA : ∀ op ∈ A, isTerminalWrite op = false) :
    frozenAfterTerminal (A ++ [z]) := by
  refine frozen_append A [z] hA ⟨fun _ op hop => ?_, trivial⟩
  simp at hop

theorem preOps_nonterminal (env : Env) (p : ParsedEvent) :
    ∀ op ∈ preOps env p, isTerminalWrite op = false := by
  simp [preOps, isTerminalWrite, statusOf, createFields, unzippingFields]

theorem preOps_progList (env : Env) (p : ParsedEvent) :
    progList (preOps env p) = [0, 10] := by
  simp [preOps, progList, progOf, createFields, unzippingFields]

theorem delOps_shape (env : Env) (p : ParsedEvent) (n : Nat) :
    ∀ op ∈ (delOps env p n).1, isTerminalWrite op = false ∧ progOf op = none := by
  unfold delOps
  split
  · split <;> simp [isTerminalWrite, statusOf, progOf, zipDeletedFields]
  · simp

theorem delOps_progList (env : Env) (p : ParsedEvent) (n : Nat) :
    progList (delOps env p n).1 = [] := by
  rw [progList, List.filterMap_eq_nil_iff]
  intro op h
  exact (delOps_shape env p n op h).2

/-- Assembling the monotone progress chain `0, 10, checkpoints, (40)`. -/
theorem chain_prog (l tl : List Nat)
    (hchain : List.Chain' (· ≤ ·) l)
    (hlb : ∀ v ∈ l, 10 ≤ v) (hub : ∀ v ∈ l, v ≤ 40)
    (htl : tl = [] ∨ tl = [40]) :
    List.Chain' (· ≤ ·) (0 :: 10 :: (l ++ tl)) := by
  rw [List.chain'_cons]
  refine ⟨by omega, ?_⟩
  rw [List.chain'_cons']
  refine ⟨?_, ?_⟩
  · intro y hy
    have hmem := List.mem_of_mem_head? hy
    rcases List.mem_append.mp hmem with h | h
    · exact hlb y h
    · rcases htl with rfl | rfl
      · simp at h
      · simp at h
        omega
  · rw [List.chain'_append]
    refine ⟨hchain, ?_, ?_⟩
    · rcases htl with rfl | rfl <;> simp
    · intro x hx y hy
      have hxl : x ∈ l := mem_of_getLast? hx
      have := hub x hxl
      rcases htl with rfl | rfl
      · simp at hy
      · simp at hy
        omega

/-- C3 (amended): within a single invocation the persisted progress
values are monotonically non-decreasing — but not strictly increasing —
(0, 10, the periodic checkpoints, 40), and no progress value is
persisted after a terminal `FAILED`/`COMPLETED` status write. -/
theorem c3_progress_monotone_and_frozen (event : Event) (env : Env) :
    List.Chain' (· ≤ ·) (progList (lambda_handler event env).2) ∧
    frozenAfterTerminal (lambda_handler event env).2 := by
  cases hp : parse_event event env.uuid with
  | error e =>
      rw [handler_parse_error event env hp]
      exact ⟨by simp [progList, progOf, failFields], frozen_snoc [] _ (by simp)⟩
  | ok po =>
    cases po with
    | none =>
        rw [handler_parse_none event env hp]
        exact ⟨by simp [progList, progOf, failFields], frozen_snoc [] _ (by simp)⟩
    | some parsed =>
      cases ha : env.archive with
      | error e =>
          rw [handler_archive_error event env hp ha]
          constructor
          · rw [progList_append, preOps_progList]
            have hz : progList [Op.dbSet parsed.jobId (failFields e (env.clock 1))] = [] := by
              simp [progList, progOf, failFields]
            rw [hz, List.append_nil]
            exact List.chain'_pair.mpr (by omega)
          · exact frozen_snoc _ _ (preOps_nonterminal env parsed)
      | ok entries =>
          have hplp : progList (loopOut env parsed entries).ops =
              checkpointSpec entries 0 entries.length := by
            unfold loopOut
            exact extractLoop_progList _ _ _ _ _ _ _ _ _
          have hnt : ∀ op ∈ (loopOut env parsed entries).ops,
              isTerminalWrite op = false := by
            intro op h
            unfold loopOut at h
            exact (extractLoop_no_invoke _ _ _ _ _ _ _ _ _ op h).2
          have hchain := checkpointSpec_chain entries 0 entries.length
          have hlb : ∀ v ∈ checkpointSpec entries 0 entries.length, 10 ≤ v := by
            intro v hv
            have := checkpointSpec_lb entries 0 entries.length v hv
            exact Nat.le_trans (Nat.le_add_right 10 _) this
          have hub := checkpointSpec_le40 entries 0 entries.length (by omega)
          have hpre := preOps_nonterminal env parsed
          cases hex : (loopOut env parsed entries).state.excelFile with
          | none =>
              rw [handler_noExcel event env hp ha hex]
              constructor
              · rw [progList_append, progList_append, preOps_progList, hplp]
                have := chain_prog (checkpointSpec entries 0 entries.length) []
                  hchain hlb hub (Or.inl rfl)
                simpa [progList, progOf, failFields] using this
              · refine frozen_snoc _ _ ?_
                intro op h
                rcases List.mem_append.mp h with h | h
                · exact hpre op h
                · exact hnt op h
          | some ex =>
              by_cases hpl0 : (loopOut env parsed entries).state.pdfFiles.length = 0
              · rw [handler_noPdf event env hp ha hex hpl0]
                constructor
                · rw [progList_append, progList_append, preOps_progList, hplp]
                  have := chain_prog (checkpointSpec entries 0 entries.length) []
                    hchain hlb hub (Or.inl rfl)
                  simpa [progList, progOf, failFields] using this
                · refine frozen_snoc _ _ ?_
                  intro op h
                  rcases List.mem_append.mp h with h | h
                  · exact hpre op h
                  · exact hnt op h
              · cases hs : (invoke_lambda2_sync env.lambda2Response).success with
                | false =>
                    rw [handler_vfail event env hp ha hex hpl0 hs]
                    constructor
                    · rw [progList_append, progList_append, preOps_progList, hplp]
                      have := chain_prog (checkpointSpec entries 0 entries.length) [40]
                        hchain hlb hub (Or.inr rfl)
                      simpa [progList, progOf, unzippedFields, vfailFields, failFields,
                        progList_cons] using this
                    · refine frozen_append _ _ ?_ ?_
                      · intro op h
                        rcases List.mem_append.mp h with h | h
                        · exact hpre op h
                        · exact hnt op h
                      · simp [frozenAfterTerminal, isTerminalWrite, statusOf, progOf,
                          unzippedFields, vfailFields, failFields, isInvoke]
                | true =>
                    rw [handler_success event env hp ha hex hpl0 hs]
                    constructor
                    · rw [progList_append, progList_append, progList_append,
                        progList_append, preOps_progList, hplp, delOps_progList]
                      have := chain_prog (checkpointSpec entries 0 entries.length) [40]
                        hchain hlb hub (Or.inr rfl)
                      simpa [progList, progOf, unzippedFields, completedFields,
                        progList_cons] using this
                    · refine frozen_snoc _ _ ?_
                      intro op h
                      rcases List.mem_append.mp h with h | h
                      · rcases List.mem_append.mp h with h | h
                        · rcases List.mem_append.mp h with h | h
                          · exact hpre op h
                          · exact hnt op h
                        · simp only [List.mem_cons, List.not_mem_nil, or_false] at h
                          rcases h with rfl | rfl
                          · simp [isTerminalWrite, statusOf, unzippedFields]
                          · simp [isTerminalWrite, statusOf]
                      · exact (delOps_shape env parsed _ op h).1

set_option maxRecDepth 4000 in
/-- C3, counterexample: over an archive of exactly 10 processed entries
the 10th-entry checkpoint already persists progress 40, and the
post-extraction `UNZIPPED` write persists 40 again — two consecutive
equal persisted progress values, so "strictly greater" fails. -/
theorem c3_counterexample_equal_consecutive_progress :
    progList (lambda_handler evS3fix envC3ce).2 = [0, 10, 40, 40] ∧
    ¬ List.Chain' (· < ·) (progList (lambda_handler evS3fix envC3ce).2) := by
  have h : progList (lambda_handler evS3fix envC3ce).2 = [0, 10, 40, 40] := by decide
  refine ⟨h, ?_⟩
  rw [h]
  intro hc
  rw [List.chain'_cons, List.chain'_cons, List.chain'_cons] at hc
  exact absurd hc.2.2.1 (by omega)

/-! ## Claim C4 -/

/-- C4 (amended): the checkpoints the pipeline persists are exactly
described by `checkpointSpec`: one write per *fully processed* entry
whose 1-based index is divisible by 10 (an entry skipped by any
`continue` — directory markers, junk, read errors, empty or too-small
files — produces no checkpoint even at a multiple-of-10 index), with
value `10 + (index * 30) / total`, and no checkpointed value exceeds
40. -/
theorem c4_checkpoint_characterization (bucket : Option String) (unzipPath : String)
    (jid : Option String) (c : Nat → Nat) (entries : List ZipEntry) (clk : Nat) :
    progList (extractLoop bucket unzipPath jid entries.length c entries 0 {} clk).ops =
      checkpointSpec entries 0 entries.length ∧
    ∀ v ∈ progList (extractLoop bucket unzipPath jid entries.length c entries 0 {} clk).ops,
      v ≤ 40 := by
  have h := extractLoop_progList bucket unzipPath jid entries.length c entries 0 {} clk
  refine ⟨h, ?_⟩
  rw [h]
  exact checkpointSpec_le40 entries 0 entries.length (by omega)

set_option maxRecDepth 4000 in
/-- C4, counterexample: an 11-entry archive whose 10th entry is a
directory marker persists *no* checkpoint at index 10 (the claimed
value would be `10 + floor(10/11*30) = 37`), because the checkpoint
sits after the loop's `continue` statements. -/
theorem c4_counterexample_no_checkpoint_at_directory_entry :
    (ninePdfs ++ [{ name := "sub/", data := .ok { size := 0 } }, marksXlsx]).length = 11 ∧
    strEndsWith "sub/" "/" = true ∧
    progList (lambda_handler evS3fix envC4ce).2 = [0, 10, 40] ∧
    10 + 10 * 30 / 11 ∉ progList (lambda_handler evS3fix envC4ce).2 := by
  decide

/-! ## Claim C5 -/

/-- C5: across any archive with at least two qualifying spreadsheets
(and read-error texts never literally `"Duplicate"`), exactly one
spreadsheet is accepted — the first qualifying one in archive order —
and every later qualifying spreadsheet is skipped with reason
`"Duplicate"`, i.e. N − 1 duplicate skips. -/
theorem c5_first_spreadsheet_accepted_rest_duplicate (bucket : Option String)
    (unzipPath : String) (jid : Option String) (total : Nat) (c : Nat → Nat)
    (entries : List ZipEntry) (clk : Nat)
    (hre : ∀ e ∈ entries, ∀ m, e.data = .error m → m ≠ "Duplicate")
    (hN : 2 ≤ (entries.filter isQualifyingExcel).length) :
    ((entries.filter isQualifyingExcel).head?).isSome = true ∧
    (extractLoop bucket unzipPath jid total c entries 0 {} clk).state.excelFile =
      ((entries.filter isQualifyingExcel).head?).map (mkExcelItem bucket unzipPath) ∧
    dupNames (extractLoop bucket unzipPath jid total c entries 0 {} clk).state.skippedFiles =
      ((entries.filter isQualifyingExcel).drop 1).map (fun e => basename e.name) ∧
    (dupNames (extractLoop bucket unzipPath jid total c entries 0 {} clk).state.skippedFiles).length =
      (entries.filter isQualifyingExcel).length - 1 := by
  have hdup := extractLoop_dup_none bucket unzipPath jid total c entries 0 {} clk hre rfl
  have hdup2 : dupNames (extractLoop bucket unzipPath jid total c entries 0 {} clk).state.skippedFiles =
      ((entries.filter isQualifyingExcel).drop 1).map (fun e => basename e.name) := by
    simpa [dupNames] using hdup
  refine ⟨?_, ?_, hdup2, ?_⟩
  · cases hq : entries.filter isQualifyingExcel with
    | nil => rw [hq] at hN; simp at hN
    | cons a l => simp
  · exact extractLoop_excelFile bucket unzipPath jid total c entries 0 {} clk rfl
  · rw [hdup2]
    simp

/-- Witness for `c5_first_spreadsheet_accepted_rest_duplicate` over the
two-spreadsheet archive `[a.xlsx, sub/b.xlsx]`. -/
theorem c5_first_spreadsheet_accepted_rest_duplicate_witness :
    2 ≤ ([xlsxA, xlsxB].filter isQualifyingExcel).length ∧
    (extractLoop (some "bkt") "P/" (some "J") 2 (fun _ => 0) [xlsxA, xlsxB] 0 {} 1).state.excelFile =
      (([xlsxA, xlsxB].filter isQualifyingExcel).head?).map (mkExcelItem (some "bkt") "P/") :=
  ⟨by decide,
   (c5_first_spreadsheet_accepted_rest_duplicate (some "bkt") "P/" (some "J") 2
      (fun _ => 0) [xlsxA, xlsxB] 1
      (by
        intro e he m hm
        simp only [List.mem_cons, List.not_mem_nil, or_false] at he
        rcases he with rfl | rfl <;> simp [xlsxA, xlsxB] at hm)
      (by decide)).2.1⟩

/-! ## Claim C6 -/

/-- If an iteration falls through to the upload stage, the only skip it
can add is a duplicate-spreadsheet skip. -/
theorem skipSpec_fallsThrough (e : ZipEntry) (hasExcel : Bool)
    (hft : fallsThrough e = true) :
    skipSpec e hasExcel = [] ∨
    skipSpec e hasExcel = [{ fileName := basename e.name, reason := "Duplicate" }] := by
  unfold skipSpec
  unfold fallsThrough acceptedPdf isQualifyingExcel acceptedOther readable at hft
  by_cases hdir : strEndsWith e.name "/" = true
  · simp [hdir] at hft
  · by_cases hjunk : is_junk_file e.name = true
    · simp [hdir, hjunk] at hft
    · cases hdata : e.data with
      | error msg => simp [hdata, Except.isOk, Except.toBool] at hft
      | ok d =>
          by_cases hlen : (d.size == 0) = true
          · have hd : d.size = 0 := by simpa using hlen
            simp [hdata, hd, contents, Except.isOk, Except.toBool] at hft
          · have hne : ¬d.size = 0 := by simpa using hlen
            by_cases hpdf : strEndsWith (strToLower (basename e.name)) ".pdf" = true
            · by_cases hvp : is_valid_pdf (basename e.name) d.size = true
              · simp [hdir, hjunk, hdata, hlen, hpdf, hvp, lowerBase]
              · simp [hdata, hpdf, hvp, hne, contents, lowerBase,
                  Except.isOk, Except.toBool] at hft
            · by_cases hxl : (strEndsWith (strToLower (basename e.name)) ".xlsx"
                  || strEndsWith (strToLower (basename e.name)) ".xls") = true
              · by_cases hve : is_valid_excel (basename e.name) d.size = true
                · cases hasExcel <;>
                    simp [hdir, hjunk, hdata, hlen, hpdf, hxl, hve, lowerBase]
                · simp [hdata, hpdf, hxl, hve, hne, contents, lowerBase,
                    Except.isOk, Except.toBool] at hft
              · simp [hdir, hjunk, hdata, hlen, hpdf, hxl, lowerBase]

/-- C6 (amended): an iteration that records a skip with any reason other
than `"Duplicate"` (junk, empty, too-small, read-error) performs no
upload for that entry; a duplicate spreadsheet, however, *is* uploaded
before being recorded as skipped. -/
theorem c6_skipped_entries_not_uploaded_unless_duplicate (bucket : Option String)
    (unzipPath : String) (e : ZipEntry) (st : ExtractState) (rec : SkipRec)
    (hskip : (entryOutcome bucket unzipPath e st).1.skippedFiles =
      st.skippedFiles ++ [rec])
    (hreason : rec.reason ≠ "Duplicate") :
    (entryOutcome bucket unzipPath e st).2.1 = [] := by
  rw [entryOutcome_eq] at hskip ⊢
  have hsk : skipSpec e st.excelFile.isSome = [rec] := by
    have := hskip
    simp only at this
    exact List.append_cancel_left this
  by_cases hft : fallsThrough e = true
  · rcases skipSpec_fallsThrough e st.excelFile.isSome hft with hz | hz
    · rw [hz] at hsk
      cases hsk
    · rw [hz] at hsk
      have : rec.reason = "Duplicate" := by
        have hr := List.head_eq_of_cons_eq hsk.symm
        rw [hr]
      exact absurd this hreason
  · simp [putSpec, hft]

/-- Witness for `c6_skipped_entries_not_uploaded_unless_duplicate` at a
junk entry. -/
theorem c6_skipped_entries_not_uploaded_unless_duplicate_witness :
    ((entryOutcome (some "bkt") "P/" { name := ".DS_Store", data := .ok { size := 9 } }
        {}).1.skippedFiles = [{ fileName := ".DS_Store", reason := "Junk" }]) ∧
    (entryOutcome (some "bkt") "P/" { name := ".DS_Store", data := .ok { size := 9 } }
        {}).2.1 = [] :=
  ⟨by decide,
   c6_skipped_entries_not_uploaded_unless_duplicate (some "bkt") "P/"
     { name := ".DS_Store", data := .ok { size := 9 } } {}
     { fileName := ".DS_Store", reason := "Junk" } (by decide) (by decide)⟩

/-- C6, counterexample: the second qualifying spreadsheet is recorded as
skipped with reason `"Duplicate"` *and* an upload to its destination key
is performed, so "no put operation is performed for every skipped entry"
fails for duplicates. -/
theorem c6_counterexample_duplicate_spreadsheet_uploaded :
    (extractLoop (some "bkt") "P/" (some "J") 2 (fun _ => 0) [xlsxA, xlsxB] 0 {} 1).state.skippedFiles =
      [{ fileName := "b.xlsx", reason := "Duplicate" }] ∧
    Op.s3Put (some "bkt") "P/b.xlsx" { size := 2048, tag := 2 } (some xlMime) ∈
      (extractLoop (some "bkt") "P/" (some "J") 2 (fun _ => 0) [xlsxA, xlsxB] 0 {} 1).ops := by
  decide

/-! ## Claim C7 -/

theorem preOps_dbset (env : Env) (p : ParsedEvent) :
    ∀ (jid : Option String) (f : JobFieldSet), Op.dbSet jid f ∈ preOps env p →
      f = unzippingFields (env.clock 0) p := by
  intro jid f h
  simp only [preOps, List.mem_cons, List.not_mem_nil, or_false] at h
  rcases h with h | h | h
  · simp at h
  · injection h with h1 h2
  · simp at h

theorem delOps_dbset (env : Env) (p : ParsedEvent) (n : Nat) :
    ∀ (jid : Option String) (f : JobFieldSet), Op.dbSet jid f ∈ (delOps env p n).1 →
      f = zipDeletedFields (env.clock n) := by
  intro jid f h
  unfold delOps at h
  split at h
  · split at h
    · simp only [List.mem_cons, List.not_mem_nil, or_false] at h
      rcases h with h | h
      · simp at h
      · injection h with h1 h2
    · simp at h
  · simp at h

/-- Every `$set` write the handler performs either carries the
`updatedOn` timestamp or is the zip-deletion marker write, and no
`$set` write ever touches `createdOn`. -/
theorem handler_dbset_fields (event : Event) (env : Env) :
    ∀ (jid : Option String) (f : JobFieldSet),
      Op.dbSet jid f ∈ (lambda_handler event env).2 →
      (f.updatedOn.isSome = true ∨ f.originalZipDeleted = some true) ∧
      f.createdOn = none := by
  have hloop : ∀ (p : ParsedEvent) (entries : List ZipEntry) (jid : Option String)
      (f : JobFieldSet), Op.dbSet jid f ∈ (loopOut env p entries).ops →
      (f.updatedOn.isSome = true ∨ f.originalZipDeleted = some true) ∧
      f.createdOn = none := by
    intro p entries jid f h
    unfold loopOut at h
    rcases extractLoop_ops_shape _ _ _ _ _ _ _ _ _ _ h with hput | ⟨v, t, heq⟩
    · simp [isPutOp] at hput
    · injection heq with h1 h2
      subst h2
      simp
  intro jid f h
  cases hp : parse_event event env.uuid with
  | error e =>
      rw [handler_parse_error event env hp] at h
      simp only [List.mem_singleton] at h
      injection h with h1 h2
      subst h2
      simp [failFields]
  | ok po =>
    cases po with
    | none =>
        rw [handler_parse_none event env hp] at h
        simp only [List.mem_singleton] at h
        injection h with h1 h2
        subst h2
        simp [failFields]
    | some parsed =>
      cases ha : env.archive with
      | error e =>
          rw [handler_archive_error event env hp ha] at h
          rcases List.mem_append.mp h with h | h
          · rw [preOps_dbset env parsed jid f h]
            simp [unzippingFields]
          · simp only [List.mem_singleton] at h
            injection h with h1 h2
            subst h2
            simp [failFields]
      | ok entries =>
          cases hex : (loopOut env parsed entries).state.excelFile with
          | none =>
              rw [handler_noExcel event env hp ha hex] at h
              rcases List.mem_append.mp h with h | h
              · rcases List.mem_append.mp h with h | h
                · rw [preOps_dbset env parsed jid f h]
                  simp [unzippingFields]
                · exact hloop parsed entries jid f h
              · simp only [List.mem_singleton] at h
                injection h with h1 h2
                subst h2
                simp [failFields]
          | some ex =>
              by_cases hpl0 : (loopOut env parsed entries).state.pdfFiles.length = 0
              · rw [handler_noPdf event env hp ha hex hpl0] at h
                rcases List.mem_append.mp h with h | h
                · rcases List.mem_append.mp h with h | h
                  · rw [preOps_dbset env parsed jid f h]
                    simp [unzippingFields]
                  · exact hloop parsed entries jid f h
                · simp only [List.mem_singleton] at h
                  injection h with h1 h2
                  subst h2
                  simp [failFields]
              · cases hs : (invoke_lambda2_sync env.lambda2Response).success with
                | false =>
                    rw [handler_vfail event env hp ha hex hpl0 hs] at h
                    rcases List.mem_append.mp h with h | h
                    · rcases List.mem_append.mp h with h | h
                      · rw [preOps_dbset env parsed jid f h]
                        simp [unzippingFields]
                      · exact hloop parsed entries jid f h
                    · simp only [List.mem_cons, List.not_mem_nil, or_false] at h
                      rcases h with h | h | h | h
                      · injection h with h1 h2
                        subst h2
                        simp [unzippedFields]
                      · simp at h
                      · injection h with h1 h2
                        subst h2
                        simp [vfailFields]
                      · injection h with h1 h2
                        subst h2
                        simp [failFields]
                | true =>
                    rw [handler_success event env hp ha hex hpl0 hs] at h
                    rcases List.mem_append.mp h with h | h
                    · rcases List.mem_append.mp h with h | h
                      · rcases List.mem_append.mp h with h | h
                        · rcases List.mem_append.mp h with h | h
                          · rw [preOps_dbset env parsed jid f h]
                            simp [unzippingFields]
                          · exact hloop parsed entries jid f h
                        · simp only [List.mem_cons, List.not_mem_nil, or_false] at h
                          rcases h with h | h
                          · injection h with h1 h2
                            subst h2
                            simp [unzippedFields]
                          · simp at h
                      · rw [delOps_dbset env parsed _ jid f h]
                        simp [zipDeletedFields]
                    · simp only [List.mem_singleton] at h
                      injection h with h1 h2
                      subst h2
                      simp [completedFields]

/-- C7 (amended): creating the job record is idempotent — a second
`$setOnInsert` upsert with the same job identifier leaves the store
(and hence the first-written creation timestamp) unchanged — and every
`$set` write the handler performs carries the `updatedOn` timestamp,
*except* the zip-deletion marker write, which sets only the deletion
flag and deletion timestamp; no `$set` write ever touches `createdOn`. -/
theorem c7_createdAt_write_once_and_updatedOn :
    (∀ (db : List JobDoc) (jid : Option String) (f1 f2 : JobFieldSet),
      applyDbOp (applyDbOp db (.dbSetOnInsert jid f1)) (.dbSetOnInsert jid f2) =
        applyDbOp db (.dbSetOnInsert jid f1)) ∧
    (∀ (event : Event) (env : Env) (jid : Option String) (f : JobFieldSet),
      Op.dbSet jid f ∈ (lambda_handler event env).2 →
      (f.updatedOn.isSome = true ∨ f.originalZipDeleted = some true) ∧
      f.createdOn = none) := by
  constructor
  · intro db jid f1 f2
    by_cases h : db.any (fun d => d.1 = jid) = true
    · simp [applyDbOp, h]
    · simp [applyDbOp, h, List.any_append]
  · exact handler_dbset_fields

set_option maxRecDepth 4000 in
/-- Witness for `c7_createdAt_write_once_and_updatedOn`: a repeated
create leaves the store unchanged, and the `UNZIPPING` write of a
concrete success run carries `updatedOn`. -/
theorem c7_createdAt_write_once_and_updatedOn_witness :
    applyDbOp (applyDbOp [] (Op.dbSetOnInsert (some "J") { createdOn := some 5 }))
        (Op.dbSetOnInsert (some "J") { createdOn := some 9 }) =
      applyDbOp [] (Op.dbSetOnInsert (some "J") { createdOn := some 5 }) ∧
    ((zipDeletedFields 0).updatedOn.isSome = true ∨
      (zipDeletedFields 0).originalZipDeleted = some true) :=
  ⟨c7_createdAt_write_once_and_updatedOn.1 [] (some "J") _ _,
   (c7_createdAt_write_once_and_updatedOn.2 evS3fix envC7ce (some "JOB-u")
      (zipDeletedFields 0) (by decide)).1⟩

set_option maxRecDepth 4000 in
/-- C7, counterexample: the zip-deletion write performed by
`delete_zip_file` on a successful run sets `originalZipDeleted` and
`zipDeletedAt` but *not* the last-update timestamp, so "every other
field update also sets the last-update timestamp" fails. -/
theorem c7_counterexample_zip_deletion_write_lacks_updatedOn :
    Op.dbSet (some "JOB-u") (zipDeletedFields 0) ∈ (lambda_handler evS3fix envC7ce).2 ∧
    (zipDeletedFields 0).updatedOn = none := by
  decide

/-! ## Claim C10 -/

/-- C10: destination keys are flattened to the base filename, so any two
accepted PDF entries sharing a base filename yield manifest items with
identical destination keys, and both are counted in the PDF total; in
the concrete run with `a/x.pdf` and `b/x.pdf`, both uploads target the
same key and the final blob-store value at that key is the later
entry's bytes. -/
theorem c10_flattened_keys_collide :
    (∀ (bucket : Option String) (unzipPath : String) (jid : Option String)
       (total : Nat) (c : Nat → Nat) (clk : Nat)
       (pre mid post : List ZipEntry) (e1 e2 : ZipEntry),
       acceptedPdf e1 = true → acceptedPdf e2 = true →
       basename e1.name = basename e2.name →
       ∃ l1 l2 l3,
         (extractLoop bucket unzipPath jid total c
             (pre ++ e1 :: mid ++ e2 :: post) 0 {} clk).state.pdfFiles =
           l1 ++ mkPdfItem bucket unzipPath e1 :: l2 ++ mkPdfItem bucket unzipPath e2 :: l3 ∧
         (mkPdfItem bucket unzipPath e1).s3Key = (mkPdfItem bucket unzipPath e2).s3Key ∧
         (extractLoop bucket unzipPath jid total c
             (pre ++ e1 :: mid ++ e2 :: post) 0 {} clk).state.pdfFiles.length =
           ((pre ++ e1 :: mid ++ e2 :: post).filter acceptedPdf).length) ∧
    (s3Run (lambda_handler evS3fix envC10).2 (fun _ => none)
        (some "bkt", "Answer_Scripts_Zip_Files/E1/C1/unzipped/x.pdf") =
      some { size := 1024, tag := 2 } ∧
     Op.s3Put (some "bkt") "Answer_Scripts_Zip_Files/E1/C1/unzipped/x.pdf"
        { size := 1024, tag := 1 } (some pdfMime) ∈ (lambda_handler evS3fix envC10).2 ∧
     Op.s3Put (some "bkt") "Answer_Scripts_Zip_Files/E1/C1/unzipped/x.pdf"
        { size := 1024, tag := 2 } (some pdfMime) ∈ (lambda_handler evS3fix envC10).2 ∧
     (loopOut envC10 parsedFix [pdfX1, pdfX2, marksXlsx]).state.pdfFiles.map
        (fun i => i.s3Key) =
       ["Answer_Scripts_Zip_Files/E1/C1/unzipped/x.pdf",
        "Answer_Scripts_Zip_Files/E1/C1/unzipped/x.pdf"]) := by
  constructor
  · intro bucket unzipPath jid total c clk pre mid post e1 e2 h1 h2 hb
    have hfil : (pre ++ e1 :: mid ++ e2 :: post).filter acceptedPdf =
        pre.filter acceptedPdf ++
          e1 :: (mid.filter acceptedPdf ++ e2 :: post.filter acceptedPdf) := by
      simp [List.filter_append, List.filter_cons, h1, h2]
    refine ⟨(pre.filter acceptedPdf).map (mkPdfItem bucket unzipPath),
            (mid.filter acceptedPdf).map (mkPdfItem bucket unzipPath),
            (post.filter acceptedPdf).map (mkPdfItem bucket unzipPath), ?_, ?_, ?_⟩
    · rw [extractLoop_pdfFiles, hfil]
      simp
    · simp [mkPdfItem, hb]
    · rw [extractLoop_pdfFiles, hfil]
      simp
  · exact ⟨by decide, by decide, by decide, by decide⟩

/-- Witness for `c10_flattened_keys_collide` at the concrete colliding
pair. -/
theorem c10_flattened_keys_collide_witness :
    acceptedPdf pdfX1 = true ∧
    (mkPdfItem (some "b") "P/" pdfX1).s3Key = (mkPdfItem (some "b") "P/" pdfX2).s3Key := by
  have h := c10_flattened_keys_collide.1 (some "b") "P/" (some "J") 3 (fun _ => 0) 1
    [] [] [marksXlsx] pdfX1 pdfX2 (by decide) (by decide) (by decide)
  obtain ⟨l1, l2, l3, hfiles, hkeys, hlen⟩ := h
  exact ⟨by decide, hkeys⟩

/-- Witness for `c4_checkpoint_characterization` over the 10-entry
archive. -/
theorem c4_checkpoint_characterization_witness :
    progList (extractLoop (some "bkt") "P/" (some "J")
        (ninePdfs ++ [marksXlsx]).length (fun _ => 0) (ninePdfs ++ [marksXlsx]) 0 {} 1).ops =
      checkpointSpec (ninePdfs ++ [marksXlsx]) 0 (ninePdfs ++ [marksXlsx]).length :=
  (c4_checkpoint_characterization (some "bkt") "P/" (some "J") (fun _ => 0)
    (ninePdfs ++ [marksXlsx]) 1).1

end StreamUnzip
